import Mathlib

/-!
Verification of the recovery core of the RAMCloud repository: the partition
recovery event loop of `MasterService::recover`, the post-condition check
`MasterService::detectSegmentRecoveryFailure`, the `Recover` RPC handler,
tablet migration (`MasterService::migrateTablet` and
`MasterService::migrateSingleLogEntry`), `MasterService::takeTabletOwnership`,
and the coordinator-side recovery orchestration exercised by `RecoveryTest`.

The replay loop is embedded as a small-step transition system: one step
completes one in-flight `GetRecoveryData` RPC (in any order, covering the
nondeterministic completion order of the real loop) and refills the task
slot exactly as the source does.  Success or failure of the fetch for the
replica at index `i` is given by an environment `env : Nat -> Bool`.
-/

namespace RAMCloudRecovery

/-- The state enum `MasterService::Replica::State` from the source. -/
inductive ReplicaState where
  | notStarted
  | waiting
  | ok
  | failed
deriving DecidableEq, Repr

/-- The scoreboard row `struct MasterService::Replica`: a backup id, a segment id and a state. -/
structure Replica where
  backupId : Nat
  segmentId : Nat
  state : ReplicaState
deriving DecidableEq, Repr

def defaultReplica : Replica := ⟨0, 0, ReplicaState.notStarted⟩

/-- Insert into an `unordered_set` (no duplicates). -/
def rinsert (x : Nat) (s : List Nat) : List Nat :=
  if x ∈ s then s else x :: s

/-- Erase from an `unordered_set` (removes every occurrence). -/
def rerase (x : Nat) (s : List Nat) : List Nat :=
  s.filter (fun y => y != x)

/-- Overwrite the state of the replica at index `i` (the scoreboard row update
`replica.state = ...` in `MasterService::recover`). -/
def setState (replicas : List Replica) (i : Nat) (s : ReplicaState) : List Replica :=
  replicas.set i { replicas.getD i defaultReplica with state := s }

/-- Mark every replica whose segment id is `seg` as OK: the
`segmentIdToBackups.equal_range` loop run after a successful replay. -/
def markSegmentOk (replicas : List Replica) (seg : Nat) : List Replica :=
  replicas.map (fun r => if r.segmentId = seg then { r with state := ReplicaState.ok } else r)

/-- The state of the replay loop in `MasterService::recover`:
the replica scoreboard, the set of in-flight segment ids (`runningSet`),
the four task slots (`Tub<RecoveryTask> tasks[4]`, each holding the index of
the replica it serves), the `notStarted` cursor, the `activeRequests`
counter, and the list of segments replayed so far (in replay order). -/
structure RecoverState where
  replicas : List Replica
  runningSet : List Nat
  slots : Fin 4 → Option Nat
  notStarted : Nat
  activeRequests : Nat
  replays : List Nat

/-- The skip in the initial round of RPCs:
`while (replicaIt != replicasEnd && contains(runningSet, replicaIt->segmentId)) ++replicaIt`.
The fuel argument only bounds the recursion; `replicas.length - i` always
suffices because every iteration moves `i` forward. -/
def skipRunningGo (replicas : List Replica) (running : List Nat) : Nat → Nat → Nat
  | 0, i => i
  | fuel + 1, i =>
    if i < replicas.length ∧ (replicas.getD i defaultReplica).segmentId ∈ running then
      skipRunningGo replicas running fuel (i + 1)
    else
      i

def skipRunning (replicas : List Replica) (running : List Nat) (i : Nat) : Nat :=
  skipRunningGo replicas running (replicas.length - i) i

/-- The cursor advance (`move notStarted up as far as possible`):
advance past every row whose state is not NOT_STARTED. -/
def advanceGo (replicas : List Replica) : Nat → Nat → Nat
  | 0, i => i
  | fuel + 1, i =>
    if i < replicas.length ∧ (replicas.getD i defaultReplica).state ≠ ReplicaState.notStarted then
      advanceGo replicas fuel (i + 1)
    else
      i

def advanceNotStarted (replicas : List Replica) (i : Nat) : Nat :=
  advanceGo replicas (replicas.length - i) i

/-- The refill scan (`Find the next NOT_STARTED entry not in-flight from another entry`):
the first index `j ≥ i` whose state is NOT_STARTED and whose segment id is not
in `running`; `none` when the scan runs off the end (`outOfHosts`). -/
def findCandidateGo (replicas : List Replica) (running : List Nat) : Nat → Nat → Option Nat
  | 0, _ => none
  | fuel + 1, i =>
    if i < replicas.length then
      let rep := replicas.getD i defaultReplica
      if rep.state = ReplicaState.notStarted ∧ rep.segmentId ∉ running then some i
      else findCandidateGo replicas running fuel (i + 1)
    else
      none

def findCandidate (replicas : List Replica) (running : List Nat) (i : Nat) : Option Nat :=
  findCandidateGo replicas running (replicas.length - i) i

/-- Issue a `GetRecoveryData` RPC for replica `j` in slot `k`: construct the
task, set the replica's state to WAITING and insert its segment id into
`runningSet`. -/
def pickReplica (st : RecoverState) (k : Fin 4) (j : Nat) : RecoverState :=
  { st with
      slots := Function.update st.slots k (some j)
      replicas := setState st.replicas j ReplicaState.waiting
      runningSet := rinsert (st.replicas.getD j defaultReplica).segmentId st.runningSet }

/-- Completion of the RPC held in slot `k` for replica `r`: on success
(`env r = true`) the segment is replayed and every replica with the same
segment id is marked OK; on failure (a corrupt segment, an absent backup, or
an RPC error) only this replica is marked FAILED.  Either way the segment id
leaves `runningSet` and the task is destroyed. -/
def completeTask (env : Nat → Bool) (st : RecoverState) (k : Fin 4) (r : Nat) : RecoverState :=
  let seg := (st.replicas.getD r defaultReplica).segmentId
  if env r then
    { st with
        replicas := markSegmentOk st.replicas seg
        runningSet := rerase seg st.runningSet
        replays := st.replays ++ [seg]
        slots := Function.update st.slots k none }
  else
    { st with
        replicas := setState st.replicas r ReplicaState.failed
        runningSet := rerase seg st.runningSet
        slots := Function.update st.slots k none }

/-- After a completion: move `notStarted` up, then either start a new RPC in
the freed slot or, when no candidate remains, decrement `activeRequests`. -/
def refillSlot (st : RecoverState) (k : Fin 4) : RecoverState :=
  let ns := advanceNotStarted st.replicas st.notStarted
  match findCandidate st.replicas st.runningSet ns with
  | some j => { pickReplica st k j with notStarted := ns }
  | none => { st with notStarted := ns, activeRequests := st.activeRequests - 1 }

/-- One iteration of the event loop body for slot `k` (a no-op when the slot
is empty). -/
def processSlot (env : Nat → Bool) (st : RecoverState) (k : Fin 4) : RecoverState :=
  match st.slots k with
  | none => st
  | some r => refillSlot (completeTask env st k r) k

/-- The initial round of RPCs (`// Start RPCs`): fill the four slots in order,
scanning the replica list from the top and skipping rows whose segment id is
already in flight. -/
def initFillGo : Nat → Nat → Nat → RecoverState → RecoverState
  | 0, _, _, st => st
  | fuel + 1, slot, i, st =>
    if h4 : slot < 4 then
      if i < st.replicas.length then
        let st1 := pickReplica st ⟨slot, h4⟩ i
        let st2 := { st1 with activeRequests := st1.activeRequests + 1 }
        initFillGo fuel (slot + 1) (skipRunning st2.replicas st2.runningSet (i + 1)) st2
      else st
    else st

/-- Build the scoreboard from the `(backupId, segmentId)` pairs of the
`Recover` RPC request: every replica starts NOT_STARTED. -/
def mkReplicas (pairs : List (Nat × Nat)) : List Replica :=
  pairs.map (fun p => ⟨p.1, p.2, ReplicaState.notStarted⟩)

def emptyRecoverState (pairs : List (Nat × Nat)) : RecoverState :=
  { replicas := mkReplicas pairs
    runningSet := []
    slots := fun _ => none
    notStarted := 0
    activeRequests := 0
    replays := [] }

/-- The loop state right after the initial round of RPCs. -/
def initState (pairs : List (Nat × Nat)) : RecoverState :=
  initFillGo 4 0 0 (emptyRecoverState pairs)

/-- One step of the event loop: some occupied slot's RPC becomes ready and is
processed.  The choice of `k` models the arbitrary completion order of the
in-flight RPCs. -/
inductive RecoverStep (env : Nat → Bool) : RecoverState → RecoverState → Prop where
  | step (st : RecoverState) (k : Fin 4) (r : Nat) (h : st.slots k = some r) :
      RecoverStep env st (processSlot env st k)

/-- The states the replay loop can reach on input `pairs` with fetch
outcomes `env`. -/
def Reachable (env : Nat → Bool) (pairs : List (Nat × Nat)) (st : RecoverState) : Prop :=
  Relation.ReflTransGen (RecoverStep env) (initState pairs) st

/-- The `failures` set computed by `MasterService::detectSegmentRecoveryFailure`:
scan the replica list; an OK row erases its segment id, a FAILED row inserts
it (any other state trips the assertion and is handled separately). -/
def detectFailures (replicas : List Replica) : List Nat :=
  replicas.foldl
    (fun failures r =>
      match r.state with
      | ReplicaState.ok => rerase r.segmentId failures
      | ReplicaState.failed => rinsert r.segmentId failures
      | _ => failures)
    []

/-- Whether `detectSegmentRecoveryFailure` throws `SegmentRecoveryFailedException`:
exactly when the computed `failures` set is non-empty. -/
def detectThrows (replicas : List Replica) : Bool :=
  !(detectFailures replicas).isEmpty

/-- The set of occupied task slots. -/
def slotSet (slots : Fin 4 → Option Nat) : Finset (Fin 4) :=
  Finset.univ.filter (fun k : Fin 4 => (slots k).isSome = true)

/-- Number of occupied task slots (in-flight `GetRecoveryData` RPCs). -/
def occupiedCount (st : RecoverState) : Nat :=
  (slotSet st.slots).card

/-- The replica at index `i` of the scoreboard. -/
def repAt (st : RecoverState) (i : Nat) : Replica :=
  st.replicas.getD i defaultReplica

/-- The backup id and segment id of a replica (everything but its state). -/
def stripReplica (r : Replica) : Nat × Nat :=
  (r.backupId, r.segmentId)

/-! ### Tablet migration (`MasterService::migrateSingleLogEntry`,
`MasterService::migrateTablet`) -/

/-- The log entry types `migrateSingleLogEntry` inspects; `other` stands for
every remaining `LogEntryType`. -/
inductive LogEntryType where
  | obj
  | objTomb
  | txDecision
  | other
deriving DecidableEq, Repr

/-- A log entry as seen by the migration filter: its type, the table id and
key hash extracted from its key (or transaction-decision record), its object
version, and whether the hash table still points at this log entry
(`ObjectManager::keyPointsAtReference`). -/
structure LogEntry where
  type : LogEntryType
  tableId : Nat
  keyHash : Nat
  version : Nat
  liveInHashTable : Bool
deriving DecidableEq, Repr

/-- The filter of `MasterService::migrateSingleLogEntry`, in the source's
control flow order: only OBJECT / OBJECT_TOMBSTONE / TX_DECISION entries are
of interest; the entry's table id must match; the key hash must lie in
`[firstKeyHash, lastKeyHash]`; and an OBJECT is sent only when the hash table
still points at this log entry.  Tombstones in range are always sent. -/
def entrySelected (tableId firstKeyHash lastKeyHash : Nat) (e : LogEntry) : Bool :=
  if e.type ≠ LogEntryType.obj ∧ e.type ≠ LogEntryType.objTomb ∧
      e.type ≠ LogEntryType.txDecision then false
  else if e.tableId ≠ tableId then false
  else if e.keyHash < firstKeyHash ∨ lastKeyHash < e.keyHash then false
  else if e.type = LogEntryType.obj ∧ e.liveInHashTable = false then false
  else true

/-- The entries appended to transfer segments during a migration: the log
scan applies `migrateSingleLogEntry` to every entry. -/
def migrateFiltered (tableId firstKeyHash lastKeyHash : Nat)
    (log : List LogEntry) : List LogEntry :=
  log.filter (entrySelected tableId firstKeyHash lastKeyHash)

/-- Modelled from the spec: the object manager's duplicate resolution on
replay (`ObjectManager::replaySegment` is not in the sources) — "the object
manager resolves duplicates by `(keyHash, version)`, keeping the highest
version or latest tombstone".  Returns the version of the object the
destination holds for `key` after replaying `received`, or `none` when the
winning entry is a tombstone (or no entry mentions the key). -/
def destHolds (received : List LogEntry) (key : Nat) : Option Nat :=
  let forKey := received.filter (fun e => e.keyHash == key)
  let winner := forKey.foldl
    (fun best e =>
      match best with
      | none => some e
      | some b => if b.version < e.version then some e else some b)
    none
  match winner with
  | some w => if w.type = LogEntryType.obj then some w.version else none
  | none => none

/-- A tablet as kept by the tablet map: table id, key hash range, state. -/
inductive TabletState where
  | normal
  | recovering
  | lockedForMigration
deriving DecidableEq, Repr

structure Tablet where
  tableId : Nat
  startKeyHash : Nat
  endKeyHash : Nat
  state : TabletState
deriving DecidableEq, Repr

/-- Modelled from the spec: `TabletManager::getTablet(tableId, firstKeyHash,
lastKeyHash, ...)` (TabletManager is not in the sources).  Succeeds exactly
when the master owns a single contiguous tablet covering the whole requested
range, per the comment in `MasterService::migrateTablet`. -/
def getTablet (map : List Tablet) (tableId first last : Nat) : Option Tablet :=
  map.find? (fun t =>
    decide (t.tableId = tableId ∧ t.startKeyHash ≤ first ∧ last ≤ t.endKeyHash))

inductive MigrateOutcome where
  | unknownTablet
  | requestFormatError
  | proceed
deriving DecidableEq, Repr

/-- The rejection prologue of `MasterService::migrateTablet` followed by the
log scan: a request for a range this master does not own returns
UNKNOWN_TABLET, migration to self returns REQUEST_FORMAT_ERROR; in both
cases no entry is transferred.  Otherwise the migration proceeds and streams
the filtered entries. -/
def migrateTabletRun (map : List Tablet) (serverId : Nat) (log : List LogEntry)
    (tableId first last newOwner : Nat) : MigrateOutcome × List LogEntry :=
  match getTablet map tableId first last with
  | none => (MigrateOutcome.unknownTablet, [])
  | some _ =>
    if newOwner = serverId then (MigrateOutcome.requestFormatError, [])
    else (MigrateOutcome.proceed, migrateFiltered tableId first last log)

/-! ### `MasterService::takeTabletOwnership` -/

/-- Whether tablet `t` overlaps the range `[first, last]` of `tableId`. -/
def overlapsRange (t : Tablet) (tableId first last : Nat) : Prop :=
  t.tableId = tableId ∧ t.startKeyHash ≤ last ∧ first ≤ t.endKeyHash

instance (t : Tablet) (tableId first last : Nat) :
    Decidable (overlapsRange t tableId first last) := by
  unfold overlapsRange; infer_instance

/-- Modelled from the spec: `TabletManager::addTablet` (TabletManager is not
in the sources).  Adds a tablet unless it overlaps an existing one; owned
tablets are pairwise non-overlapping. -/
def addTablet (map : List Tablet) (tableId first last : Nat) (s : TabletState) :
    Option (List Tablet) :=
  if map.any (fun t => decide (overlapsRange t tableId first last)) then none
  else some (Tablet.mk tableId first last s :: map)

/-- Modelled from the spec: `TabletManager::changeState` (TabletManager is
not in the sources).  Succeeds only on a tablet with exactly the given table
id, range and from-state, and rewrites its state. -/
def changeState (map : List Tablet) (tableId first last : Nat)
    (stFrom stTo : TabletState) : Option (List Tablet) :=
  if map.any (fun t => decide (t = Tablet.mk tableId first last stFrom)) then
    some (map.map (fun t =>
      if t = Tablet.mk tableId first last stFrom then Tablet.mk tableId first last stTo
      else t))
  else none

inductive TakeOutcome where
  | takeSuccess
  | internalError
deriving DecidableEq, Repr

/-- The handler `MasterService::takeTabletOwnership`: try to add a NORMAL tablet; if that
fails because of an overlap, return success when a covering tablet in NORMAL
state is already owned; otherwise try to flip an exactly matching RECOVERING
tablet to NORMAL; otherwise report INTERNAL_ERROR.  Returns the status and
the resulting tablet map. -/
def takeTabletOwnership (map : List Tablet) (tableId first last : Nat) :
    TakeOutcome × List Tablet :=
  match addTablet map tableId first last TabletState.normal with
  | some m => (TakeOutcome.takeSuccess, m)
  | none =>
    let viaChange :=
      match changeState map tableId first last TabletState.recovering TabletState.normal with
      | some m => (TakeOutcome.takeSuccess, m)
      | none => (TakeOutcome.internalError, map)
    match getTablet map tableId first last with
    | some t => if t.state = TabletState.normal then (TakeOutcome.takeSuccess, map) else viaChange
    | none => viaChange

/-- Owned tablets are pairwise non-overlapping in `(tableId, keyHashRange)`
(invariant stated in the spec's data model). -/
def TabletsDisjoint (map : List Tablet) : Prop :=
  map.Pairwise (fun a b =>
    a.tableId ≠ b.tableId ∨ a.endKeyHash < b.startKeyHash ∨ b.endKeyHash < a.startKeyHash)

instance (map : List Tablet) : Decidable (TabletsDisjoint map) := by
  unfold TabletsDisjoint; infer_instance

/-! ### Coordinator-side orchestration (`Recovery`), modelled from the spec:
`Recovery.cc` itself is not among the sources, only `RecoveryTest.cc`. -/

/-- Modelled from the spec: the segment→backup multimap built by the
replica-map builder.  Every `(segmentId, backupId)` pair contributed by a
backup appears once; iteration order is segment ids ascending and, within a
segment id, backup ids ascending (the spec's tie-break rule). -/
def segmentBackupPairs (backups : List (Nat × List Nat)) : List (Nat × Nat) :=
  backups.flatMap (fun b => b.2.map (fun s => (s, b.1)))

def pairLE (a b : Nat × Nat) : Bool :=
  decide (a.1 < b.1 ∨ (a.1 = b.1 ∧ a.2 ≤ b.2))

def insertSorted (x : Nat × Nat) : List (Nat × Nat) → List (Nat × Nat)
  | [] => [x]
  | y :: l => if pairLE x y then x :: y :: l else y :: insertSorted x l

def sortPairs (l : List (Nat × Nat)) : List (Nat × Nat) :=
  l.foldr insertSorted []

def buildSegmentIdToBackups (backups : List (Nat × List Nat)) : List (Nat × Nat) :=
  sortPairs (segmentBackupPairs backups)

inductive ServerRole where
  | masterRole
  | backupRole
deriving DecidableEq, Repr

structure DispatchEntry where
  segmentId : Nat
  backupId : Nat
  role : ServerRole
deriving DecidableEq, Repr

/-- Modelled from the spec: the ordered dispatch list (`recovery.backups`)
derived from the multimap, every entry carrying the BACKUP role. -/
def createBackupList (backups : List (Nat × List Nat)) : List DispatchEntry :=
  (buildSegmentIdToBackups backups).map (fun p => DispatchEntry.mk p.1 p.2 ServerRole.backupRole)

structure DispatchResult where
  attempted : List Nat
  bustedDiagnostic : Bool
deriving DecidableEq, Repr

/-- Modelled from the spec: `Recovery::start`.  One recovery partition goes to
each available recovery master; surplus partitions are not attempted, and
when partitions outnumber masters a terminal diagnostic declares the system
unrecovered ("your RAMCloud is now busted"). -/
def startRecoveryDispatch (masters : List Nat) (partitions : List Nat) : DispatchResult :=
  { attempted := partitions.take masters.length
    bustedDiagnostic := decide (masters.length < partitions.length) }

/-! ### The `Recover` RPC handler: cluster time and the ownership handoff -/

/-- The primitive `Atomic<uint64_t>::compareExchange(expected, desired)`: atomically write
`desired` when the cell holds `expected`; always return the prior value.
Result: `(new cell value, returned prior value)`. -/
def compareExchange (cell expected desired : Nat) : Nat × Nat :=
  if cell = expected then (desired, cell) else (cell, cell)

/-- The compare-exchange loop of the `Recover` handler:
`while (currentClusterTime < clientLease.timestamp) currentClusterTime =
clusterTime.compareExchange(currentClusterTime, clientLease.timestamp)`.
Between iterations other service threads may advance `clusterTime`; each such
interference is an advance to `max(current, observed)` (the spec's cluster
time discipline), modelled by `env`. -/
def casLoop (env : Nat → Nat) (ts : Nat) : Nat → Nat → Nat → Nat
  | 0, _, cell => cell
  | fuel + 1, current, cell =>
    if current < ts then
      casLoop env ts fuel
        (compareExchange (max cell (env fuel)) current ts).2
        (compareExchange (max cell (env fuel)) current ts).1
    else cell

/-- The cluster-time update performed by the `Recover` handler, starting from
the read `currentClusterTime = clusterTime`.  `ts + 1` iterations always
suffice for the loop to exit. -/
def updateClusterTime (env : Nat → Nat) (ts cell0 : Nat) : Nat :=
  casLoop env ts (ts + 1) cell0 cell0

/-- The externally visible actions of the `Recover` RPC handler
(`MasterService::recover(reqHdr, respHdr, rpc)`), in program order. -/
inductive RecoverRpcEvent where
  | sendGetLeaseRpc
  | addRecoveringTablet (tableId first last : Nat)
  | updateClusterTimeEvt
  | rollLogHead
  | replayAndCommitSideLog
  | reportRecoveryFinished
  | setTabletNormal (tableId first last : Nat)
  | dropRecoveredTablet (tableId first last : Nat)
deriving DecidableEq, Repr

/-- The handler's action trace on a recovery partition `tablets` (each tablet
a `(tableId, firstKeyHash, lastKeyHash)` triple): issue the GetLeaseInfo RPC,
install the tablets as RECOVERING, wait for the lease and raise
`clusterTime`, roll the log head over, run the replay loop and commit the
side log, report to the coordinator, and finally — only if the coordinator
did not cancel — flip each tablet RECOVERING → NORMAL (else drop them). -/
def recoverRpcTrace (tablets : List (Nat × Nat × Nat)) (cancel : Bool) :
    List RecoverRpcEvent :=
  [RecoverRpcEvent.sendGetLeaseRpc] ++
  tablets.map (fun t => RecoverRpcEvent.addRecoveringTablet t.1 t.2.1 t.2.2) ++
  [RecoverRpcEvent.updateClusterTimeEvt, RecoverRpcEvent.rollLogHead,
   RecoverRpcEvent.replayAndCommitSideLog, RecoverRpcEvent.reportRecoveryFinished] ++
  (if cancel then tablets.map (fun t => RecoverRpcEvent.dropRecoveredTablet t.1 t.2.1 t.2.2)
   else tablets.map (fun t => RecoverRpcEvent.setTabletNormal t.1 t.2.1 t.2.2))

/-! ### The replica-failover scenario (spec scenario S5):
segment 42 has two replicas; the fetch from the first one (index 0, on
backup 1) returns a corrupt segment, the fetch from the second (index 1, on
backup 2) succeeds. -/

def envS5 : Nat → Bool := fun i => i == 1

def pairsS5 : List (Nat × Nat) := [(1, 42), (2, 42)]

/-- After the initial round of RPCs only slot 0 is occupied (by replica 0;
replica 1 is skipped because segment 42 is already in flight), so the first
completion necessarily processes slot 0: the fetch fails and replica 1 is
started in its place. -/
def s5mid : RecoverState := processSlot envS5 (initState pairsS5) 0

/-- The second completion (again the only occupied slot, 0) succeeds,
replays segment 42 and ends the loop. -/
def s5fin : RecoverState := processSlot envS5 s5mid 0

/-! ## Lemmas about the helper functions -/

lemma mem_rinsert {y x : Nat} {s : List Nat} : y ∈ rinsert x s ↔ y = x ∨ y ∈ s := by
  unfold rinsert
  split <;> rename_i hx
  · constructor
    · exact Or.inr
    · rintro (rfl | h) <;> assumption
  · simp [List.mem_cons]

lemma mem_rerase {y x : Nat} {s : List Nat} : y ∈ rerase x s ↔ y ∈ s ∧ y ≠ x := by
  unfold rerase
  simp [List.mem_filter]

lemma length_setState (l : List Replica) (i : Nat) (s : ReplicaState) :
    (setState l i s).length = l.length := by
  unfold setState
  exact List.length_set l i _

lemma getD_setState_eq {l : List Replica} {i : Nat} (s : ReplicaState) (h : i < l.length) :
    (setState l i s).getD i defaultReplica = { l.getD i defaultReplica with state := s } := by
  unfold setState
  rw [List.getD_eq_getElem _ _ (by simpa using h), List.getElem_set_self]

lemma getD_setState_ne {l : List Replica} {i j : Nat} (s : ReplicaState) (h : j ≠ i) :
    (setState l i s).getD j defaultReplica = l.getD j defaultReplica := by
  unfold setState
  by_cases hj : j < l.length
  · rw [List.getD_eq_getElem _ _ (by simpa using hj),
      List.getD_eq_getElem _ _ hj, List.getElem_set_ne (Ne.symm h)]
  · rw [List.getD_eq_default _ _ (by simpa using Nat.le_of_not_lt hj),
      List.getD_eq_default _ _ (Nat.le_of_not_lt hj)]

lemma strip_setState (l : List Replica) (i : Nat) (s : ReplicaState) (j : Nat) :
    stripReplica ((setState l i s).getD j defaultReplica) =
      stripReplica (l.getD j defaultReplica) := by
  by_cases hji : j = i
  · subst hji
    by_cases hj : j < l.length
    · rw [getD_setState_eq s hj]; rfl
    · unfold setState
      rw [List.getD_eq_default _ _ (by simpa using Nat.le_of_not_lt hj),
        List.getD_eq_default _ _ (Nat.le_of_not_lt hj)]
  · rw [getD_setState_ne s hji]

lemma length_markSegmentOk (l : List Replica) (x : Nat) :
    (markSegmentOk l x).length = l.length := by
  unfold markSegmentOk
  exact List.length_map l _

lemma getD_markSegmentOk (l : List Replica) (x : Nat) (j : Nat) :
    (markSegmentOk l x).getD j defaultReplica =
      if j < l.length ∧ (l.getD j defaultReplica).segmentId = x then
        { l.getD j defaultReplica with state := ReplicaState.ok }
      else l.getD j defaultReplica := by
  unfold markSegmentOk
  by_cases hj : j < l.length
  · rw [List.getD_eq_getElem _ _ (by simpa using hj), List.getD_eq_getElem _ _ hj,
      List.getElem_map]
    by_cases hx : l[j].segmentId = x
    · rw [if_pos hx, if_pos ⟨hj, hx⟩]
    · rw [if_neg hx, if_neg (fun hc => hx hc.2)]
  · rw [List.getD_eq_default _ _ (by simpa using Nat.le_of_not_lt hj),
      List.getD_eq_default _ _ (Nat.le_of_not_lt hj), if_neg]
    intro hc
    exact hj hc.1

lemma strip_markSegmentOk (l : List Replica) (x : Nat) (j : Nat) :
    stripReplica ((markSegmentOk l x).getD j defaultReplica) =
      stripReplica (l.getD j defaultReplica) := by
  rw [getD_markSegmentOk]
  split <;> rfl

lemma skipRunningGo_spec (l : List Replica) (running : List Nat) :
    ∀ fuel i, i ≤ skipRunningGo l running fuel i ∧
      (l.length ≤ fuel + i → skipRunningGo l running fuel i < l.length →
        (l.getD (skipRunningGo l running fuel i) defaultReplica).segmentId ∉ running) := by
  intro fuel
  induction fuel with
  | zero =>
    intro i
    refine ⟨le_refl _, fun hf hl => absurd hl (by simp only [skipRunningGo]; omega)⟩
  | succ f ih =>
    intro i
    by_cases hc : i < l.length ∧ (l.getD i defaultReplica).segmentId ∈ running
    · have hi := (ih (i + 1)).1
      constructor
      · simp only [skipRunningGo, if_pos hc]
        omega
      · intro hf hl
        simp only [skipRunningGo, if_pos hc] at hl ⊢
        exact (ih (i + 1)).2 (by omega) hl
    · constructor
      · simp only [skipRunningGo, if_neg hc]
        exact le_refl _
      · intro hf hl
        simp only [skipRunningGo, if_neg hc] at hl ⊢
        intro hmem
        exact hc ⟨hl, hmem⟩

lemma skipRunning_spec (l : List Replica) (running : List Nat) (i : Nat) :
    i ≤ skipRunning l running i ∧
      (skipRunning l running i < l.length →
        (l.getD (skipRunning l running i) defaultReplica).segmentId ∉ running) := by
  have h := skipRunningGo_spec l running (l.length - i) i
  exact ⟨h.1, h.2 (by omega)⟩

lemma advanceGo_spec (l : List Replica) :
    ∀ fuel i, i ≤ advanceGo l fuel i ∧
      (∀ m, i ≤ m → m < advanceGo l fuel i →
        (l.getD m defaultReplica).state ≠ ReplicaState.notStarted) := by
  intro fuel
  induction fuel with
  | zero =>
    intro i
    exact ⟨le_refl _, fun m h1 h2 => absurd (lt_of_le_of_lt h1 h2) (by simp [advanceGo])⟩
  | succ f ih =>
    intro i
    by_cases hc : i < l.length ∧ (l.getD i defaultReplica).state ≠ ReplicaState.notStarted
    · have hi := (ih (i + 1)).1
      constructor
      · simp only [advanceGo, if_pos hc]
        omega
      · intro m h1 h2
        simp only [advanceGo, if_pos hc] at h2
        rcases Nat.eq_or_lt_of_le h1 with heq | hlt
        · subst heq; exact hc.2
        · exact (ih (i + 1)).2 m hlt h2
    · simp only [advanceGo, if_neg hc]
      exact ⟨le_refl _, fun m h1 h2 => absurd (lt_of_le_of_lt h1 h2) (lt_irrefl _)⟩

lemma advanceNotStarted_spec (l : List Replica) (i : Nat) :
    i ≤ advanceNotStarted l i ∧
      (∀ m, i ≤ m → m < advanceNotStarted l i →
        (l.getD m defaultReplica).state ≠ ReplicaState.notStarted) :=
  advanceGo_spec l (l.length - i) i

lemma findCandidateGo_some_spec (l : List Replica) (running : List Nat) :
    ∀ fuel i j, findCandidateGo l running fuel i = some j →
      i ≤ j ∧ j < l.length ∧
      (l.getD j defaultReplica).state = ReplicaState.notStarted ∧
      (l.getD j defaultReplica).segmentId ∉ running := by
  intro fuel
  induction fuel with
  | zero => intro i j h; simp [findCandidateGo] at h
  | succ f ih =>
    intro i j h
    simp only [findCandidateGo] at h
    by_cases hi : i < l.length
    · rw [if_pos hi] at h
      by_cases hgood : (l.getD i defaultReplica).state = ReplicaState.notStarted ∧
          (l.getD i defaultReplica).segmentId ∉ running
      · rw [if_pos hgood] at h
        obtain rfl : i = j := Option.some_inj.mp h
        exact ⟨le_refl _, hi, hgood.1, hgood.2⟩
      · rw [if_neg hgood] at h
        have := ih (i + 1) j h
        exact ⟨by omega, this.2.1, this.2.2⟩
    · rw [if_neg hi] at h
      exact absurd h (by simp)

lemma findCandidateGo_none_spec (l : List Replica) (running : List Nat) :
    ∀ fuel i, l.length ≤ fuel + i → findCandidateGo l running fuel i = none →
      ∀ j, i ≤ j → j < l.length →
        ¬((l.getD j defaultReplica).state = ReplicaState.notStarted ∧
          (l.getD j defaultReplica).segmentId ∉ running) := by
  intro fuel
  induction fuel with
  | zero =>
    intro i hf _ j h1 h2
    omega
  | succ f ih =>
    intro i hf h j h1 h2
    simp only [findCandidateGo] at h
    by_cases hi : i < l.length
    · rw [if_pos hi] at h
      by_cases hgood : (l.getD i defaultReplica).state = ReplicaState.notStarted ∧
          (l.getD i defaultReplica).segmentId ∉ running
      · rw [if_pos hgood] at h
        exact absurd h (by simp)
      · rw [if_neg hgood] at h
        rcases Nat.eq_or_lt_of_le h1 with heq | hlt
        · subst heq; exact hgood
        · exact ih (i + 1) (by omega) h j hlt h2
    · omega

lemma findCandidate_some_spec (l : List Replica) (running : List Nat) (i j : Nat)
    (h : findCandidate l running i = some j) :
    i ≤ j ∧ j < l.length ∧
      (l.getD j defaultReplica).state = ReplicaState.notStarted ∧
      (l.getD j defaultReplica).segmentId ∉ running :=
  findCandidateGo_some_spec l running (l.length - i) i j h

lemma findCandidate_none_spec (l : List Replica) (running : List Nat) (i : Nat)
    (h : findCandidate l running i = none) :
    ∀ j, i ≤ j → j < l.length →
      ¬((l.getD j defaultReplica).state = ReplicaState.notStarted ∧
        (l.getD j defaultReplica).segmentId ∉ running) :=
  findCandidateGo_none_spec l running (l.length - i) i (by omega) h

lemma mem_slotSet {slots : Fin 4 → Option Nat} {k : Fin 4} :
    k ∈ slotSet slots ↔ (slots k).isSome = true := by
  unfold slotSet
  simp

lemma slotSet_update_none (slots : Fin 4 → Option Nat) (k : Fin 4) :
    slotSet (Function.update slots k none) = (slotSet slots).erase k := by
  ext a
  rw [mem_slotSet, Finset.mem_erase, mem_slotSet]
  by_cases ha : a = k
  · subst ha; simp
  · rw [Function.update_noteq ha]
    simp [ha]

lemma slotSet_update_some (slots : Fin 4 → Option Nat) (k : Fin 4) (j : Nat) :
    slotSet (Function.update slots k (some j)) = insert k (slotSet slots) := by
  ext a
  rw [mem_slotSet, Finset.mem_insert, mem_slotSet]
  by_cases ha : a = k
  · subst ha; simp
  · rw [Function.update_noteq ha]
    simp [ha]

lemma replicaState_cases (s : ReplicaState)
    (h1 : s ≠ ReplicaState.notStarted) (h2 : s ≠ ReplicaState.waiting) :
    s = ReplicaState.ok ∨ s = ReplicaState.failed := by
  cases s
  · exact absurd rfl h1
  · exact absurd rfl h2
  · exact Or.inl rfl
  · exact Or.inr rfl

lemma seg_of_strip {a b : Replica} (h : stripReplica a = stripReplica b) :
    a.segmentId = b.segmentId :=
  congrArg Prod.snd h

lemma map_strip_setState (l : List Replica) (i : Nat) (s : ReplicaState) :
    (setState l i s).map stripReplica = l.map stripReplica := by
  apply List.ext_getElem (by simp [length_setState])
  intro n h1 h2
  simp only [List.getElem_map]
  have hn : n < (setState l i s).length := by simpa using h1
  have hn2 : n < l.length := by simpa using h2
  have := strip_setState l i s n
  rwa [List.getD_eq_getElem _ _ hn, List.getD_eq_getElem _ _ hn2] at this

lemma map_strip_markSegmentOk (l : List Replica) (x : Nat) :
    (markSegmentOk l x).map stripReplica = l.map stripReplica := by
  apply List.ext_getElem (by simp [length_markSegmentOk])
  intro n h1 h2
  simp only [List.getElem_map]
  have hn : n < (markSegmentOk l x).length := by simpa using h1
  have hn2 : n < l.length := by simpa using h2
  have := strip_markSegmentOk l x n
  rwa [List.getD_eq_getElem _ _ hn, List.getD_eq_getElem _ _ hn2] at this

lemma getD_mem {l : List Replica} {i : Nat} (h : i < l.length) :
    l.getD i defaultReplica ∈ l := by
  rw [List.getD_eq_getElem _ _ h]
  exact List.getElem_mem h

/-! ## The loop invariant of the replay loop -/

/-- The inductive invariant of the event loop of `MasterService::recover`:
bookkeeping of the task slots, `runningSet`, `activeRequests` and the
`notStarted` cursor against the scoreboard, plus the global facts the claims
need: the backup/segment columns of the scoreboard never change (`shape`),
OK-ness is uniform per segment id (`ok_uniform`), a replica whose fetches
succeed is never FAILED (`env_ok`), and when `activeRequests` drops to zero
every row is OK or FAILED (`done_done`). -/
structure Inv (env : Nat → Bool) (pairs : List (Nat × Nat)) (st : RecoverState) : Prop where
  shape : st.replicas.map stripReplica = pairs
  active_eq : st.activeRequests = occupiedCount st
  slot_lt : ∀ k r, st.slots k = some r → r < st.replicas.length
  slot_waiting : ∀ k r, st.slots k = some r → (repAt st r).state = ReplicaState.waiting
  slot_running : ∀ k r, st.slots k = some r → (repAt st r).segmentId ∈ st.runningSet
  running_slot : ∀ x, x ∈ st.runningSet →
    ∃ k r, st.slots k = some r ∧ (repAt st r).segmentId = x
  slot_seg_inj : ∀ k k2 r r2, st.slots k = some r → st.slots k2 = some r2 → k ≠ k2 →
    (repAt st r).segmentId ≠ (repAt st r2).segmentId
  waiting_slot : ∀ r, r < st.replicas.length → (repAt st r).state = ReplicaState.waiting →
    ∃ k, st.slots k = some r
  before_ns : ∀ i, i < st.notStarted → i < st.replicas.length →
    (repAt st i).state ≠ ReplicaState.notStarted
  ok_uniform : ∀ i j, i < st.replicas.length → j < st.replicas.length →
    (repAt st i).state = ReplicaState.ok →
    (repAt st j).segmentId = (repAt st i).segmentId →
    (repAt st j).state = ReplicaState.ok
  env_ok : ∀ r, r < st.replicas.length → env r = true →
    (repAt st r).state ≠ ReplicaState.failed
  done_done : st.activeRequests = 0 → ∀ i, i < st.replicas.length →
    (repAt st i).state = ReplicaState.ok ∨ (repAt st i).state = ReplicaState.failed

/-- The invariant in the middle of a loop iteration, right after
`completeTask`: slot `k` has been destroyed but `activeRequests` has not been
adjusted yet. -/
structure MidInv (env : Nat → Bool) (pairs : List (Nat × Nat)) (st : RecoverState) : Prop where
  shape : st.replicas.map stripReplica = pairs
  active_mid : st.activeRequests = occupiedCount st + 1
  slot_lt : ∀ k r, st.slots k = some r → r < st.replicas.length
  slot_waiting : ∀ k r, st.slots k = some r → (repAt st r).state = ReplicaState.waiting
  slot_running : ∀ k r, st.slots k = some r → (repAt st r).segmentId ∈ st.runningSet
  running_slot : ∀ x, x ∈ st.runningSet →
    ∃ k r, st.slots k = some r ∧ (repAt st r).segmentId = x
  slot_seg_inj : ∀ k k2 r r2, st.slots k = some r → st.slots k2 = some r2 → k ≠ k2 →
    (repAt st r).segmentId ≠ (repAt st r2).segmentId
  waiting_slot : ∀ r, r < st.replicas.length → (repAt st r).state = ReplicaState.waiting →
    ∃ k, st.slots k = some r
  before_ns : ∀ i, i < st.notStarted → i < st.replicas.length →
    (repAt st i).state ≠ ReplicaState.notStarted
  ok_uniform : ∀ i j, i < st.replicas.length → j < st.replicas.length →
    (repAt st i).state = ReplicaState.ok →
    (repAt st j).segmentId = (repAt st i).segmentId →
    (repAt st j).state = ReplicaState.ok
  env_ok : ∀ r, r < st.replicas.length → env r = true →
    (repAt st r).state ≠ ReplicaState.failed

lemma completeTask_true (env : Nat → Bool) (st : RecoverState) (k : Fin 4) (r : Nat)
    (h : env r = true) :
    completeTask env st k r =
      { st with
          replicas := markSegmentOk st.replicas (repAt st r).segmentId
          runningSet := rerase (repAt st r).segmentId st.runningSet
          replays := st.replays ++ [(repAt st r).segmentId]
          slots := Function.update st.slots k none } := by
  unfold completeTask repAt
  rw [if_pos h]

lemma completeTask_false (env : Nat → Bool) (st : RecoverState) (k : Fin 4) (r : Nat)
    (h : env r = false) :
    completeTask env st k r =
      { st with
          replicas := setState st.replicas r ReplicaState.failed
          runningSet := rerase (repAt st r).segmentId st.runningSet
          slots := Function.update st.slots k none } := by
  unfold completeTask repAt
  rw [if_neg (by rw [h]; exact Bool.false_ne_true)]

lemma refillSlot_some (st : RecoverState) (k : Fin 4) (j : Nat)
    (h : findCandidate st.replicas st.runningSet
        (advanceNotStarted st.replicas st.notStarted) = some j) :
    refillSlot st k =
      { pickReplica st k j with notStarted := advanceNotStarted st.replicas st.notStarted } := by
  unfold refillSlot
  simp only [h]

lemma refillSlot_none (st : RecoverState) (k : Fin 4)
    (h : findCandidate st.replicas st.runningSet
        (advanceNotStarted st.replicas st.notStarted) = none) :
    refillSlot st k =
      { st with notStarted := advanceNotStarted st.replicas st.notStarted
                activeRequests := st.activeRequests - 1 } := by
  unfold refillSlot
  simp only [h]

lemma seg_markSegmentOk (l : List Replica) (x : Nat) (j : Nat) :
    ((markSegmentOk l x).getD j defaultReplica).segmentId =
      (l.getD j defaultReplica).segmentId :=
  seg_of_strip (strip_markSegmentOk l x j)

lemma seg_setState (l : List Replica) (i : Nat) (s : ReplicaState) (j : Nat) :
    ((setState l i s).getD j defaultReplica).segmentId =
      (l.getD j defaultReplica).segmentId :=
  seg_of_strip (strip_setState l i s j)

lemma completeTask_mid {env : Nat → Bool} {pairs : List (Nat × Nat)} {st : RecoverState}
    {k : Fin 4} {r : Nat} (hinv : Inv env pairs st) (hk : st.slots k = some r) :
    MidInv env pairs (completeTask env st k r) ∧
    (completeTask env st k r).slots k = none ∧
    (completeTask env st k r).notStarted = st.notStarted := by
  have hrlen : r < st.replicas.length := hinv.slot_lt k r hk
  have hrwait : (repAt st r).state = ReplicaState.waiting := hinv.slot_waiting k r hk
  have hkmem : k ∈ slotSet st.slots := mem_slotSet.mpr (by rw [hk]; rfl)
  have hcard : occupiedCount st = ((slotSet st.slots).erase k).card + 1 := by
    unfold occupiedCount
    rw [Finset.card_erase_of_mem hkmem]
    have : 0 < (slotSet st.slots).card := Finset.card_pos.mpr ⟨k, hkmem⟩
    omega
  cases henv : env r with
  | true =>
    rw [completeTask_true env st k r henv]
    refine ⟨⟨?_, ?_, ?_, ?_, ?_, ?_, ?_, ?_, ?_, ?_, ?_⟩, ?_, ?_⟩
    · -- shape
      show (markSegmentOk st.replicas (repAt st r).segmentId).map stripReplica = pairs
      rw [map_strip_markSegmentOk]
      exact hinv.shape
    · -- active_mid
      show st.activeRequests = occupiedCount _ + 1
      unfold occupiedCount
      simp only
      rw [slotSet_update_none, hinv.active_eq]
      exact hcard
    · -- slot_lt
      intro k2 r2 h2
      simp only at h2
      by_cases hk2 : k2 = k
      · subst hk2; rw [Function.update_same] at h2; cases h2
      · rw [Function.update_noteq hk2] at h2
        have := hinv.slot_lt k2 r2 h2
        show r2 < (markSegmentOk st.replicas _).length
        rw [length_markSegmentOk]
        exact this
    · -- slot_waiting
      intro k2 r2 h2
      simp only at h2
      by_cases hk2 : k2 = k
      · subst hk2; rw [Function.update_same] at h2; cases h2
      · rw [Function.update_noteq hk2] at h2
        have hne := hinv.slot_seg_inj k2 k r2 r h2 hk hk2
        show ((markSegmentOk st.replicas _).getD r2 defaultReplica).state = _
        rw [getD_markSegmentOk, if_neg (fun hc => hne hc.2)]
        exact hinv.slot_waiting k2 r2 h2
    · -- slot_running
      intro k2 r2 h2
      simp only at h2
      by_cases hk2 : k2 = k
      · subst hk2; rw [Function.update_same] at h2; cases h2
      · rw [Function.update_noteq hk2] at h2
        have hne := hinv.slot_seg_inj k2 k r2 r h2 hk hk2
        show ((markSegmentOk st.replicas _).getD r2 defaultReplica).segmentId ∈
          rerase (repAt st r).segmentId st.runningSet
        rw [seg_markSegmentOk]
        exact mem_rerase.mpr ⟨hinv.slot_running k2 r2 h2, hne⟩
    · -- running_slot
      intro x hx
      replace hx := mem_rerase.mp hx
      obtain ⟨k2, r2, h2, hseg⟩ := hinv.running_slot x hx.1
      have hk2 : k2 ≠ k := by
        intro hck
        subst hck
        rw [hk] at h2
        obtain rfl : r2 = r := by injection h2 with h; omega
        exact hx.2 hseg.symm
      refine ⟨k2, r2, ?_, ?_⟩
      · show Function.update st.slots k none k2 = some r2
        rw [Function.update_noteq hk2]
        exact h2
      · show ((markSegmentOk st.replicas _).getD r2 defaultReplica).segmentId = x
        rw [seg_markSegmentOk]
        exact hseg
    · -- slot_seg_inj
      intro k2 k3 r2 r3 h2 h3 hne
      simp only at h2 h3
      by_cases hk2 : k2 = k
      · subst hk2; rw [Function.update_same] at h2; cases h2
      by_cases hk3 : k3 = k
      · subst hk3; rw [Function.update_same] at h3; cases h3
      rw [Function.update_noteq hk2] at h2
      rw [Function.update_noteq hk3] at h3
      show ((markSegmentOk st.replicas _).getD r2 defaultReplica).segmentId ≠
        ((markSegmentOk st.replicas _).getD r3 defaultReplica).segmentId
      rw [seg_markSegmentOk, seg_markSegmentOk]
      exact hinv.slot_seg_inj k2 k3 r2 r3 h2 h3 hne
    · -- waiting_slot
      intro r2 hr2 hw
      simp only [repAt] at hw
      rw [length_markSegmentOk] at hr2
      rw [getD_markSegmentOk] at hw
      by_cases hc : r2 < st.replicas.length ∧
          (st.replicas.getD r2 defaultReplica).segmentId = (st.replicas.getD r defaultReplica).segmentId
      · rw [if_pos hc] at hw
        cases hw
      · rw [if_neg hc] at hw
        obtain ⟨k2, h2⟩ := hinv.waiting_slot r2 hr2 hw
        have hr2r : r2 ≠ r := by
          intro hrr
          subst hrr
          exact hc ⟨hr2, rfl⟩
        have hk2 : k2 ≠ k := by
          intro hck
          subst hck
          rw [hk] at h2
          injection h2 with h
          exact hr2r h.symm
        refine ⟨k2, ?_⟩
        show Function.update st.slots k none k2 = some r2
        rw [Function.update_noteq hk2]
        exact h2
    · -- before_ns
      intro i hi hil
      simp only [repAt]
      rw [length_markSegmentOk] at hil
      rw [getD_markSegmentOk]
      by_cases hc : i < st.replicas.length ∧
          (st.replicas.getD i defaultReplica).segmentId = (st.replicas.getD r defaultReplica).segmentId
      · rw [if_pos hc]
        intro hcc
        cases hcc
      · rw [if_neg hc]
        exact hinv.before_ns i hi hil
    · -- ok_uniform
      intro i j hi hj hok hsegeq
      simp only [repAt] at hok hsegeq ⊢
      rw [length_markSegmentOk] at hi hj
      rw [getD_markSegmentOk] at hok ⊢
      rw [seg_markSegmentOk, seg_markSegmentOk] at hsegeq
      by_cases hci : (st.replicas.getD i defaultReplica).segmentId = (st.replicas.getD r defaultReplica).segmentId
      · rw [if_pos ⟨hj, by rw [hsegeq]; exact hci⟩]
      · rw [if_neg (fun hc => hci hc.2)] at hok
        have := hinv.ok_uniform i j hi hj hok hsegeq
        rw [if_neg (fun hc => hci (by rw [← hsegeq]; exact hc.2))]
        exact this
    · -- env_ok
      intro r2 hr2 he2
      simp only [repAt]
      rw [length_markSegmentOk] at hr2
      rw [getD_markSegmentOk]
      by_cases hc : r2 < st.replicas.length ∧
          (st.replicas.getD r2 defaultReplica).segmentId = (st.replicas.getD r defaultReplica).segmentId
      · rw [if_pos hc]
        intro hcc
        cases hcc
      · rw [if_neg hc]
        exact hinv.env_ok r2 hr2 he2
    · -- freed slot
      show Function.update st.slots k none k = none
      rw [Function.update_same]
    · -- notStarted unchanged
      rfl
  | false =>
    rw [completeTask_false env st k r henv]
    refine ⟨⟨?_, ?_, ?_, ?_, ?_, ?_, ?_, ?_, ?_, ?_, ?_⟩, ?_, ?_⟩
    · show (setState st.replicas r ReplicaState.failed).map stripReplica = pairs
      rw [map_strip_setState]
      exact hinv.shape
    · show st.activeRequests = occupiedCount _ + 1
      unfold occupiedCount
      simp only
      rw [slotSet_update_none, hinv.active_eq]
      exact hcard
    · intro k2 r2 h2
      simp only at h2
      by_cases hk2 : k2 = k
      · subst hk2; rw [Function.update_same] at h2; cases h2
      · rw [Function.update_noteq hk2] at h2
        have := hinv.slot_lt k2 r2 h2
        show r2 < (setState st.replicas r ReplicaState.failed).length
        rw [length_setState]
        exact this
    · intro k2 r2 h2
      simp only at h2
      by_cases hk2 : k2 = k
      · subst hk2; rw [Function.update_same] at h2; cases h2
      · rw [Function.update_noteq hk2] at h2
        have hne := hinv.slot_seg_inj k2 k r2 r h2 hk hk2
        have hr2r : r2 ≠ r := fun hrr => hne (by rw [hrr])
        show ((setState st.replicas r ReplicaState.failed).getD r2 defaultReplica).state = _
        rw [getD_setState_ne _ hr2r]
        exact hinv.slot_waiting k2 r2 h2
    · intro k2 r2 h2
      simp only at h2
      by_cases hk2 : k2 = k
      · subst hk2; rw [Function.update_same] at h2; cases h2
      · rw [Function.update_noteq hk2] at h2
        have hne := hinv.slot_seg_inj k2 k r2 r h2 hk hk2
        show ((setState st.replicas r ReplicaState.failed).getD r2 defaultReplica).segmentId ∈
          rerase (repAt st r).segmentId st.runningSet
        rw [seg_setState]
        exact mem_rerase.mpr ⟨hinv.slot_running k2 r2 h2, hne⟩
    · intro x hx
      replace hx := mem_rerase.mp hx
      obtain ⟨k2, r2, h2, hseg⟩ := hinv.running_slot x hx.1
      have hk2 : k2 ≠ k := by
        intro hck
        subst hck
        rw [hk] at h2
        obtain rfl : r2 = r := by injection h2 with h; omega
        exact hx.2 (by rw [← hseg])
      refine ⟨k2, r2, ?_, ?_⟩
      · show Function.update st.slots k none k2 = some r2
        rw [Function.update_noteq hk2]
        exact h2
      · show ((setState st.replicas r ReplicaState.failed).getD r2 defaultReplica).segmentId = x
        rw [seg_setState]
        exact hseg
    · intro k2 k3 r2 r3 h2 h3 hne
      simp only at h2 h3
      by_cases hk2 : k2 = k
      · subst hk2; rw [Function.update_same] at h2; cases h2
      by_cases hk3 : k3 = k
      · subst hk3; rw [Function.update_same] at h3; cases h3
      rw [Function.update_noteq hk2] at h2
      rw [Function.update_noteq hk3] at h3
      show ((setState st.replicas r ReplicaState.failed).getD r2 defaultReplica).segmentId ≠
        ((setState st.replicas r ReplicaState.failed).getD r3 defaultReplica).segmentId
      rw [seg_setState, seg_setState]
      exact hinv.slot_seg_inj k2 k3 r2 r3 h2 h3 hne
    · intro r2 hr2 hw
      simp only [repAt] at hw
      rw [length_setState] at hr2
      by_cases hr2r : r2 = r
      · subst hr2r
        rw [getD_setState_eq _ hr2] at hw
        cases hw
      · rw [getD_setState_ne _ hr2r] at hw
        obtain ⟨k2, h2⟩ := hinv.waiting_slot r2 hr2 hw
        have hk2 : k2 ≠ k := by
          intro hck
          subst hck
          rw [hk] at h2
          injection h2 with h
          exact hr2r h.symm
        refine ⟨k2, ?_⟩
        show Function.update st.slots k none k2 = some r2
        rw [Function.update_noteq hk2]
        exact h2
    · intro i hi hil
      simp only [repAt]
      rw [length_setState] at hil
      by_cases hir : i = r
      · subst hir
        rw [getD_setState_eq _ hil]
        intro hcc
        cases hcc
      · rw [getD_setState_ne _ hir]
        exact hinv.before_ns i hi hil
    · intro i j hi hj hok hsegeq
      simp only [repAt] at hok hsegeq ⊢
      rw [length_setState] at hi hj
      rw [seg_setState, seg_setState] at hsegeq
      by_cases hir : i = r
      · subst hir
        rw [getD_setState_eq _ hi] at hok
        cases hok
      · rw [getD_setState_ne _ hir] at hok
        have hjok := hinv.ok_uniform i j hi hj hok hsegeq
        have hjr : j ≠ r := by
          intro hjr
          subst hjr
          rw [hjok] at hrwait
          cases hrwait
        rw [getD_setState_ne _ hjr]
        exact hjok
    · intro r2 hr2 he2
      simp only [repAt]
      rw [length_setState] at hr2
      by_cases hr2r : r2 = r
      · subst hr2r
        rw [he2] at henv
        cases henv
      · rw [getD_setState_ne _ hr2r]
        exact hinv.env_ok r2 hr2 he2
    · show Function.update st.slots k none k = none
      rw [Function.update_same]
    · rfl

lemma refillSlot_inv {env : Nat → Bool} {pairs : List (Nat × Nat)} {st : RecoverState}
    {k : Fin 4} (hmid : MidInv env pairs st) (hknone : st.slots k = none) :
    Inv env pairs (refillSlot st k) := by
  obtain ⟨hadv1, hadv2⟩ := advanceNotStarted_spec st.replicas st.notStarted
  have hknotmem : k ∉ slotSet st.slots := by
    rw [mem_slotSet, hknone]
    simp
  cases hfc : findCandidate st.replicas st.runningSet
      (advanceNotStarted st.replicas st.notStarted) with
  | some j =>
    rw [refillSlot_some st k j hfc]
    unfold pickReplica
    obtain ⟨hnsj, hjlen, hjns, hjrun⟩ := findCandidate_some_spec _ _ _ _ hfc
    refine ⟨?_, ?_, ?_, ?_, ?_, ?_, ?_, ?_, ?_, ?_, ?_, ?_⟩
    · show (setState st.replicas j ReplicaState.waiting).map stripReplica = pairs
      rw [map_strip_setState]
      exact hmid.shape
    · show st.activeRequests = occupiedCount _
      unfold occupiedCount
      simp only
      rw [slotSet_update_some, Finset.card_insert_of_not_mem hknotmem]
      exact hmid.active_mid
    · intro k2 r2 h2
      simp only at h2
      show r2 < (setState st.replicas j ReplicaState.waiting).length
      rw [length_setState]
      by_cases hk2 : k2 = k
      · subst hk2
        rw [Function.update_same] at h2
        injection h2 with h
        omega
      · rw [Function.update_noteq hk2] at h2
        exact hmid.slot_lt k2 r2 h2
    · intro k2 r2 h2
      simp only at h2
      show ((setState st.replicas j ReplicaState.waiting).getD r2 defaultReplica).state = _
      by_cases hk2 : k2 = k
      · subst hk2
        rw [Function.update_same] at h2
        injection h2 with h
        subst h
        rw [getD_setState_eq _ hjlen]
      · rw [Function.update_noteq hk2] at h2
        have hw := hmid.slot_waiting k2 r2 h2
        have hr2j : r2 ≠ j := by
          intro hrr
          have hww := hmid.slot_waiting k2 r2 h2
          simp only [repAt] at hww
          rw [hrr] at hww
          rw [hww] at hjns
          cases hjns
        rw [getD_setState_ne _ hr2j]
        exact hw
    · intro k2 r2 h2
      simp only at h2
      show ((setState st.replicas j ReplicaState.waiting).getD r2 defaultReplica).segmentId ∈
        rinsert (st.replicas.getD j defaultReplica).segmentId st.runningSet
      rw [seg_setState]
      by_cases hk2 : k2 = k
      · subst hk2
        rw [Function.update_same] at h2
        injection h2 with h
        subst h
        exact mem_rinsert.mpr (Or.inl rfl)
      · rw [Function.update_noteq hk2] at h2
        exact mem_rinsert.mpr (Or.inr (hmid.slot_running k2 r2 h2))
    · intro x hx
      simp only at hx
      rcases mem_rinsert.mp hx with hxj | hxm
      · refine ⟨k, j, ?_, ?_⟩
        · show Function.update st.slots k (some j) k = some j
          rw [Function.update_same]
        · show ((setState st.replicas j ReplicaState.waiting).getD j defaultReplica).segmentId = x
          rw [seg_setState]
          exact hxj.symm
      · obtain ⟨k2, r2, h2, hseg⟩ := hmid.running_slot x hxm
        have hk2 : k2 ≠ k := by
          intro hck
          subst hck
          rw [hknone] at h2
          cases h2
        refine ⟨k2, r2, ?_, ?_⟩
        · show Function.update st.slots k (some j) k2 = some r2
          rw [Function.update_noteq hk2]
          exact h2
        · show ((setState st.replicas j ReplicaState.waiting).getD r2 defaultReplica).segmentId = x
          rw [seg_setState]
          exact hseg
    · intro k2 k3 r2 r3 h2 h3 hne
      simp only at h2 h3
      show ((setState st.replicas j ReplicaState.waiting).getD r2 defaultReplica).segmentId ≠
        ((setState st.replicas j ReplicaState.waiting).getD r3 defaultReplica).segmentId
      rw [seg_setState, seg_setState]
      by_cases hk2 : k2 = k
      · rw [hk2, Function.update_same] at h2
        injection h2 with h
        subst h
        have hk3 : k3 ≠ k := fun hc => hne (hk2.trans hc.symm)
        rw [Function.update_noteq hk3] at h3
        intro hceq
        exact hjrun (by rw [hceq]; exact hmid.slot_running k3 r3 h3)
      · rw [Function.update_noteq hk2] at h2
        by_cases hk3 : k3 = k
        · rw [hk3, Function.update_same] at h3
          injection h3 with h
          subst h
          intro hceq
          exact hjrun (by rw [← hceq]; exact hmid.slot_running k2 r2 h2)
        · rw [Function.update_noteq hk3] at h3
          exact hmid.slot_seg_inj k2 k3 r2 r3 h2 h3 hne
    · intro r2 hr2 hw
      simp only [repAt] at hw
      rw [length_setState] at hr2
      by_cases hr2j : r2 = j
      · subst hr2j
        exact ⟨k, by show Function.update st.slots k (some r2) k = some r2; rw [Function.update_same]⟩
      · rw [getD_setState_ne _ hr2j] at hw
        obtain ⟨k2, h2⟩ := hmid.waiting_slot r2 hr2 hw
        have hk2 : k2 ≠ k := by
          intro hck
          subst hck
          rw [hknone] at h2
          cases h2
        exact ⟨k2, by
          show Function.update st.slots k (some j) k2 = some r2
          rw [Function.update_noteq hk2]
          exact h2⟩
    · intro i hi hil
      simp only [repAt] at hi ⊢
      rw [length_setState] at hil
      have hij : i ≠ j := by omega
      rw [getD_setState_ne _ hij]
      by_cases hins : i < st.notStarted
      · exact hmid.before_ns i hins hil
      · exact hadv2 i (by omega) hi
    · intro i j2 hi hj2 hok hsegeq
      simp only [repAt] at hok hsegeq ⊢
      rw [length_setState] at hi hj2
      rw [seg_setState, seg_setState] at hsegeq
      have hij : i ≠ j := by
        intro hc
        subst hc
        rw [getD_setState_eq _ hi] at hok
        cases hok
      rw [getD_setState_ne _ hij] at hok
      have hj2ok := hmid.ok_uniform i j2 hi hj2 hok hsegeq
      simp only [repAt] at hj2ok
      have hj2j : j2 ≠ j := by
        intro hc
        rw [hc] at hj2ok
        rw [hj2ok] at hjns
        cases hjns
      rw [getD_setState_ne _ hj2j]
      exact hj2ok
    · intro r2 hr2 he2
      simp only [repAt]
      rw [length_setState] at hr2
      by_cases hr2j : r2 = j
      · subst hr2j
        rw [getD_setState_eq _ hr2]
        intro hc
        cases hc
      · rw [getD_setState_ne _ hr2j]
        exact hmid.env_ok r2 hr2 he2
    · intro h0
      simp only at h0
      rw [hmid.active_mid] at h0
      omega
  | none =>
    rw [refillSlot_none st k hfc]
    have hnone := findCandidate_none_spec _ _ _ hfc
    refine ⟨?_, ?_, ?_, ?_, ?_, ?_, ?_, ?_, ?_, ?_, ?_, ?_⟩
    · exact hmid.shape
    · show st.activeRequests - 1 = occupiedCount _
      unfold occupiedCount
      simp only
      have := hmid.active_mid
      unfold occupiedCount at this
      omega
    · exact hmid.slot_lt
    · exact hmid.slot_waiting
    · exact hmid.slot_running
    · exact hmid.running_slot
    · exact hmid.slot_seg_inj
    · exact hmid.waiting_slot
    · intro i hi hil
      simp only at hi
      by_cases hins : i < st.notStarted
      · exact hmid.before_ns i hins hil
      · exact hadv2 i (by omega) hi
    · exact hmid.ok_uniform
    · exact hmid.env_ok
    · intro h0 i hil
      simp only at h0 hil ⊢
      have hocc : occupiedCount st = 0 := by
        have := hmid.active_mid
        omega
      have hslots : ∀ k2 : Fin 4, st.slots k2 = none := by
        intro k2
        have : k2 ∉ slotSet st.slots := by
          unfold occupiedCount at hocc
          rw [Finset.card_eq_zero] at hocc
          rw [hocc]
          exact Finset.not_mem_empty k2
        rw [mem_slotSet] at this
        exact Option.not_isSome_iff_eq_none.mp this
      have hrun : ∀ x, x ∉ st.runningSet := by
        intro x hx
        obtain ⟨k2, r2, h2, _⟩ := hmid.running_slot x hx
        rw [hslots k2] at h2
        cases h2
      have hnotns : (repAt st i).state ≠ ReplicaState.notStarted := by
        by_cases hins : i < st.notStarted
        · exact hmid.before_ns i hins hil
        · by_cases hadv : i < advanceNotStarted st.replicas st.notStarted
          · exact hadv2 i (by omega) hadv
          · intro hc
            exact hnone i (by omega) hil ⟨hc, hrun _⟩
      have hnotw : (repAt st i).state ≠ ReplicaState.waiting := by
        intro hc
        obtain ⟨k2, h2⟩ := hmid.waiting_slot i hil hc
        rw [hslots k2] at h2
        cases h2
      exact replicaState_cases _ hnotns hnotw

lemma inv_step {env : Nat → Bool} {pairs : List (Nat × Nat)} {st st2 : RecoverState}
    (hinv : Inv env pairs st) (hstep : RecoverStep env st st2) : Inv env pairs st2 := by
  cases hstep with
  | step k r hk =>
    obtain ⟨hmid, hknone, _⟩ := completeTask_mid hinv hk
    simp only [processSlot, hk]
    exact refillSlot_inv hmid hknone

/-- The invariant maintained while the initial round of RPCs fills the task
slots: `slot` is the next slot to fill, `i` the scan cursor. -/
structure FillInv (pairs : List (Nat × Nat)) (slot i : Nat) (st : RecoverState) : Prop where
  shape : st.replicas.map stripReplica = pairs
  active_eq : st.activeRequests = occupiedCount st
  slot_lt : ∀ k r, st.slots k = some r → r < st.replicas.length
  slot_waiting : ∀ k r, st.slots k = some r → (repAt st r).state = ReplicaState.waiting
  slot_running : ∀ k r, st.slots k = some r → (repAt st r).segmentId ∈ st.runningSet
  running_slot : ∀ x, x ∈ st.runningSet →
    ∃ k r, st.slots k = some r ∧ (repAt st r).segmentId = x
  slot_seg_inj : ∀ k k2 r r2, st.slots k = some r → st.slots k2 = some r2 → k ≠ k2 →
    (repAt st r).segmentId ≠ (repAt st r2).segmentId
  waiting_slot : ∀ r, r < st.replicas.length → (repAt st r).state = ReplicaState.waiting →
    ∃ k, st.slots k = some r
  ns_zero : st.notStarted = 0
  only_ns_w : ∀ m, m < st.replicas.length →
    (repAt st m).state = ReplicaState.notStarted ∨ (repAt st m).state = ReplicaState.waiting
  cursor_ns : ∀ m, i ≤ m → m < st.replicas.length →
    (repAt st m).state = ReplicaState.notStarted
  cursor_clear : i < st.replicas.length → (repAt st i).segmentId ∉ st.runningSet
  high_empty : ∀ k : Fin 4, slot ≤ k.val → st.slots k = none

lemma state_mkReplicas (pairs : List (Nat × Nat)) (m : Nat) :
    ((mkReplicas pairs).getD m defaultReplica).state = ReplicaState.notStarted := by
  by_cases h : m < (mkReplicas pairs).length
  · rw [List.getD_eq_getElem _ _ h]
    unfold mkReplicas at *
    rw [List.getElem_map]
  · rw [List.getD_eq_default _ _ (Nat.le_of_not_lt h)]
    rfl

lemma fillInv_base (pairs : List (Nat × Nat)) : FillInv pairs 0 0 (emptyRecoverState pairs) := by
  have hns : ∀ k : Fin 4, (emptyRecoverState pairs).slots k = none := fun _ => rfl
  refine ⟨?_, ?_, ?_, ?_, ?_, ?_, ?_, ?_, rfl, ?_, ?_, ?_, fun k _ => rfl⟩
  · show (mkReplicas pairs).map stripReplica = pairs
    unfold mkReplicas
    rw [List.map_map]
    have hcomp : stripReplica ∘ (fun p : Nat × Nat => Replica.mk p.1 p.2 ReplicaState.notStarted) = id := by
      funext p
      rfl
    rw [hcomp, List.map_id]
  · show 0 = occupiedCount (emptyRecoverState pairs)
    have hempty : slotSet (emptyRecoverState pairs).slots = ∅ := by
      ext a
      rw [mem_slotSet]
      simp [emptyRecoverState]
    unfold occupiedCount
    rw [hempty]
    rfl
  · intro k r h
    rw [hns k] at h
    cases h
  · intro k r h
    rw [hns k] at h
    cases h
  · intro k r h
    rw [hns k] at h
    cases h
  · intro x hx
    cases hx
  · intro k k2 r r2 h
    rw [hns k] at h
    cases h
  · intro r hr hw
    simp only [repAt, emptyRecoverState] at hw
    rw [state_mkReplicas] at hw
    cases hw
  · intro m hm
    exact Or.inl (state_mkReplicas pairs m)
  · intro m _ _
    exact state_mkReplicas pairs m
  · intro _
    exact List.not_mem_nil _

lemma fillInv_step {pairs : List (Nat × Nat)} {slot i : Nat} {st : RecoverState}
    (hfi : FillInv pairs slot i st) (h4 : slot < 4) (hi : i < st.replicas.length) :
    FillInv pairs (slot + 1)
      (skipRunning
        ({ pickReplica st ⟨slot, h4⟩ i with
            activeRequests := (pickReplica st ⟨slot, h4⟩ i).activeRequests + 1 }).replicas
        ({ pickReplica st ⟨slot, h4⟩ i with
            activeRequests := (pickReplica st ⟨slot, h4⟩ i).activeRequests + 1 }).runningSet
        (i + 1))
      { pickReplica st ⟨slot, h4⟩ i with
          activeRequests := (pickReplica st ⟨slot, h4⟩ i).activeRequests + 1 } := by
  have hkslot : st.slots ⟨slot, h4⟩ = none := hfi.high_empty ⟨slot, h4⟩ (le_refl _)
  have hknotmem : (⟨slot, h4⟩ : Fin 4) ∉ slotSet st.slots := by
    rw [mem_slotSet, hkslot]
    simp
  have hins : (repAt st i).state = ReplicaState.notStarted := hfi.cursor_ns i (le_refl _) hi
  have hirun : (repAt st i).segmentId ∉ st.runningSet := hfi.cursor_clear hi
  obtain ⟨hskip1, hskip2⟩ := skipRunning_spec
    (setState st.replicas i ReplicaState.waiting)
    (rinsert (st.replicas.getD i defaultReplica).segmentId st.runningSet) (i + 1)
  simp only [pickReplica]
  refine ⟨?_, ?_, ?_, ?_, ?_, ?_, ?_, ?_, ?_, ?_, ?_, ?_, ?_⟩
  · show (setState st.replicas i ReplicaState.waiting).map stripReplica = pairs
    rw [map_strip_setState]
    exact hfi.shape
  · show st.activeRequests + 1 = occupiedCount _
    unfold occupiedCount
    simp only
    rw [slotSet_update_some, Finset.card_insert_of_not_mem hknotmem, hfi.active_eq]
    rfl
  · intro k2 r2 h2
    simp only at h2
    show r2 < (setState st.replicas i ReplicaState.waiting).length
    rw [length_setState]
    by_cases hk2 : k2 = ⟨slot, h4⟩
    · rw [hk2, Function.update_same] at h2
      injection h2 with h
      omega
    · rw [Function.update_noteq hk2] at h2
      exact hfi.slot_lt k2 r2 h2
  · intro k2 r2 h2
    simp only at h2
    show ((setState st.replicas i ReplicaState.waiting).getD r2 defaultReplica).state = _
    by_cases hk2 : k2 = ⟨slot, h4⟩
    · rw [hk2, Function.update_same] at h2
      injection h2 with h
      subst h
      rw [getD_setState_eq _ hi]
    · rw [Function.update_noteq hk2] at h2
      have hw := hfi.slot_waiting k2 r2 h2
      have hr2i : r2 ≠ i := by
        intro hrr
        simp only [repAt] at hw hins
        rw [hrr] at hw
        rw [hw] at hins
        cases hins
      rw [getD_setState_ne _ hr2i]
      exact hw
  · intro k2 r2 h2
    simp only at h2
    show ((setState st.replicas i ReplicaState.waiting).getD r2 defaultReplica).segmentId ∈
      rinsert (st.replicas.getD i defaultReplica).segmentId st.runningSet
    rw [seg_setState]
    by_cases hk2 : k2 = ⟨slot, h4⟩
    · rw [hk2, Function.update_same] at h2
      injection h2 with h
      subst h
      exact mem_rinsert.mpr (Or.inl rfl)
    · rw [Function.update_noteq hk2] at h2
      exact mem_rinsert.mpr (Or.inr (hfi.slot_running k2 r2 h2))
  · intro x hx
    simp only at hx
    rcases mem_rinsert.mp hx with hxj | hxm
    · refine ⟨⟨slot, h4⟩, i, ?_, ?_⟩
      · show Function.update st.slots ⟨slot, h4⟩ (some i) ⟨slot, h4⟩ = some i
        rw [Function.update_same]
      · show ((setState st.replicas i ReplicaState.waiting).getD i defaultReplica).segmentId = x
        rw [seg_setState]
        exact hxj.symm
    · obtain ⟨k2, r2, h2, hseg⟩ := hfi.running_slot x hxm
      have hk2 : k2 ≠ ⟨slot, h4⟩ := by
        intro hck
        rw [hck, hkslot] at h2
        cases h2
      refine ⟨k2, r2, ?_, ?_⟩
      · show Function.update st.slots ⟨slot, h4⟩ (some i) k2 = some r2
        rw [Function.update_noteq hk2]
        exact h2
      · show ((setState st.replicas i ReplicaState.waiting).getD r2 defaultReplica).segmentId = x
        rw [seg_setState]
        exact hseg
  · intro k2 k3 r2 r3 h2 h3 hne
    simp only at h2 h3
    show ((setState st.replicas i ReplicaState.waiting).getD r2 defaultReplica).segmentId ≠
      ((setState st.replicas i ReplicaState.waiting).getD r3 defaultReplica).segmentId
    rw [seg_setState, seg_setState]
    by_cases hk2 : k2 = ⟨slot, h4⟩
    · rw [hk2, Function.update_same] at h2
      injection h2 with h
      subst h
      have hk3 : k3 ≠ ⟨slot, h4⟩ := fun hc => hne (hk2.trans hc.symm)
      rw [Function.update_noteq hk3] at h3
      intro hceq
      exact hirun (by
        simp only [repAt]
        rw [hceq]
        exact hfi.slot_running k3 r3 h3)
    · rw [Function.update_noteq hk2] at h2
      by_cases hk3 : k3 = ⟨slot, h4⟩
      · rw [hk3, Function.update_same] at h3
        injection h3 with h
        subst h
        intro hceq
        exact hirun (by
          simp only [repAt]
          rw [← hceq]
          exact hfi.slot_running k2 r2 h2)
      · rw [Function.update_noteq hk3] at h3
        exact hfi.slot_seg_inj k2 k3 r2 r3 h2 h3 hne
  · intro r2 hr2 hw
    simp only [repAt] at hw
    rw [length_setState] at hr2
    by_cases hr2i : r2 = i
    · subst hr2i
      exact ⟨⟨slot, h4⟩, by
        show Function.update st.slots ⟨slot, h4⟩ (some r2) ⟨slot, h4⟩ = some r2
        rw [Function.update_same]⟩
    · rw [getD_setState_ne _ hr2i] at hw
      obtain ⟨k2, h2⟩ := hfi.waiting_slot r2 hr2 hw
      have hk2 : k2 ≠ ⟨slot, h4⟩ := by
        intro hck
        rw [hck, hkslot] at h2
        cases h2
      exact ⟨k2, by
        show Function.update st.slots ⟨slot, h4⟩ (some i) k2 = some r2
        rw [Function.update_noteq hk2]
        exact h2⟩
  · exact hfi.ns_zero
  · intro m hm
    simp only [repAt] at hm ⊢
    rw [length_setState] at hm
    by_cases hmi : m = i
    · subst hmi
      rw [getD_setState_eq _ hm]
      exact Or.inr rfl
    · rw [getD_setState_ne _ hmi]
      exact hfi.only_ns_w m hm
  · intro m hmge hm
    simp only [repAt] at hm ⊢
    rw [length_setState] at hm
    have hmi : m ≠ i := by omega
    rw [getD_setState_ne _ hmi]
    exact hfi.cursor_ns m (by omega) hm
  · intro hlt
    exact hskip2 hlt
  · intro k2 hk2v
    simp only
    have hk2 : k2 ≠ ⟨slot, h4⟩ := by
      intro hck
      rw [hck] at hk2v
      simp at hk2v
    rw [Function.update_noteq hk2]
    exact hfi.high_empty k2 (by omega)

lemma fillInv_go (pairs : List (Nat × Nat)) :
    ∀ fuel slot i st, FillInv pairs slot i st →
      ∃ slot2 i2, FillInv pairs slot2 i2 (initFillGo fuel slot i st) := by
  intro fuel
  induction fuel with
  | zero =>
    intro slot i st h
    exact ⟨slot, i, h⟩
  | succ f ih =>
    intro slot i st h
    by_cases h4 : slot < 4
    · by_cases hi : i < st.replicas.length
      · have hstep := fillInv_step h h4 hi
        have hrec := ih (slot + 1) _ _ hstep
        simp only [initFillGo, dif_pos h4, if_pos hi]
        exact hrec
      · simp only [initFillGo, dif_pos h4, if_neg hi]
        exact ⟨slot, i, h⟩
    · simp only [initFillGo, dif_neg h4]
      exact ⟨slot, i, h⟩

lemma initFillGo_active_mono :
    ∀ fuel slot i st, st.activeRequests ≤ (initFillGo fuel slot i st).activeRequests := by
  intro fuel
  induction fuel with
  | zero => intro slot i st; exact le_refl _
  | succ f ih =>
    intro slot i st
    by_cases h4 : slot < 4
    · by_cases hi : i < st.replicas.length
      · simp only [initFillGo, dif_pos h4, if_pos hi]
        refine le_trans ?_ (ih (slot + 1) _ _)
        simp only [pickReplica]
        omega
      · simp only [initFillGo, dif_pos h4, if_neg hi]
        exact le_refl _
    · simp only [initFillGo, dif_neg h4]
      exact le_refl _

lemma initFillGo_succ_active (f slot i : Nat) (st : RecoverState) (h4 : slot < 4)
    (hi : i < st.replicas.length) :
    st.activeRequests + 1 ≤ (initFillGo (f + 1) slot i st).activeRequests := by
  simp only [initFillGo, dif_pos h4, if_pos hi]
  refine le_trans ?_ (initFillGo_active_mono f (slot + 1) _ _)
  simp only [pickReplica]
  exact le_refl _

lemma initState_active_pos (pairs : List (Nat × Nat)) (h : pairs ≠ []) :
    0 < (initState pairs).activeRequests := by
  have hlen : 0 < (emptyRecoverState pairs).replicas.length := by
    show 0 < (mkReplicas pairs).length
    unfold mkReplicas
    rw [List.length_map]
    exact List.length_pos.mpr h
  have h1 := initFillGo_succ_active 3 0 0 (emptyRecoverState pairs) (by omega) hlen
  unfold initState
  rw [show (4 : Nat) = 3 + 1 from rfl]
  omega

lemma inv_init (env : Nat → Bool) (pairs : List (Nat × Nat)) :
    Inv env pairs (initState pairs) := by
  obtain ⟨slot2, i2, hfi0⟩ :=
    fillInv_go pairs 4 0 0 (emptyRecoverState pairs) (fillInv_base pairs)
  have hfi : FillInv pairs slot2 i2 (initState pairs) := hfi0
  refine ⟨hfi.shape, hfi.active_eq, hfi.slot_lt, hfi.slot_waiting, hfi.slot_running,
    hfi.running_slot, hfi.slot_seg_inj, hfi.waiting_slot, ?_, ?_, ?_, ?_⟩
  · intro i hi _
    rw [hfi.ns_zero] at hi
    exact absurd hi (Nat.not_lt_zero i)
  · intro i j hi hj hok _
    rcases hfi.only_ns_w i hi with hcase | hcase <;> rw [hcase] at hok <;> cases hok
  · intro r hr _
    rcases hfi.only_ns_w r hr with hcase | hcase <;> rw [hcase] <;> intro hc <;> cases hc
  · intro h0 i hi
    by_cases hp : pairs = []
    · subst hp
      have hsh := congrArg List.length hfi.shape
      rw [List.length_map] at hsh
      have hlen0 : (initState []).replicas.length = 0 := hsh
      omega
    · have := initState_active_pos pairs hp
      omega

lemma reachable_inv {env : Nat → Bool} {pairs : List (Nat × Nat)} {st : RecoverState}
    (h : Reachable env pairs st) : Inv env pairs st := by
  unfold Reachable at h
  induction h with
  | refl => exact inv_init env pairs
  | tail hsteps hstep ih => exact inv_step ih hstep

lemma detectFold_mem (x : Nat) :
    ∀ (l : List Replica) (acc : List Nat),
      (∀ r ∈ l, r.state = ReplicaState.ok ∨ r.state = ReplicaState.failed) →
      (∀ r ∈ l, ∀ r2 ∈ l, r.segmentId = r2.segmentId → r.state = ReplicaState.ok →
        r2.state = ReplicaState.ok) →
      (x ∈ l.foldl (fun failures r =>
          match r.state with
          | ReplicaState.ok => rerase r.segmentId failures
          | ReplicaState.failed => rinsert r.segmentId failures
          | _ => failures) acc ↔
        ((∃ r ∈ l, r.segmentId = x) ∧
          (∀ r ∈ l, r.segmentId = x → r.state = ReplicaState.failed)) ∨
        (x ∈ acc ∧ ¬∃ r ∈ l, r.segmentId = x)) := by
  intro l
  induction l with
  | nil =>
    intro acc _ _
    simp
  | cons a t ih =>
    intro acc hterm huni
    have hterm' : ∀ r ∈ t, r.state = ReplicaState.ok ∨ r.state = ReplicaState.failed :=
      fun r hr => hterm r (List.mem_cons_of_mem a hr)
    have huni' : ∀ r ∈ t, ∀ r2 ∈ t, r.segmentId = r2.segmentId →
        r.state = ReplicaState.ok → r2.state = ReplicaState.ok :=
      fun r hr r2 hr2 => huni r (List.mem_cons_of_mem a hr) r2 (List.mem_cons_of_mem a hr2)
    rcases hterm a (List.mem_cons_self a t) with ha | ha
    · -- head OK
      rw [List.foldl_cons, ha]
      rw [ih (rerase a.segmentId acc) hterm' huni']
      by_cases hx : x = a.segmentId
      · subst hx
        constructor
        · rintro (⟨⟨r, hrt, hrseg⟩, hall⟩ | ⟨hmem, _⟩)
          · have hrok := huni a (List.mem_cons_self a t) r (List.mem_cons_of_mem a hrt)
              hrseg.symm ha
            have hrfail := hall r hrt hrseg
            rw [hrok] at hrfail
            cases hrfail
          · exact absurd (mem_rerase.mp hmem).2 (fun h => h rfl)
        · rintro (⟨_, hall⟩ | ⟨_, hnone⟩)
          · have := hall a (List.mem_cons_self a t) rfl
            rw [ha] at this
            cases this
          · exact absurd ⟨a, List.mem_cons_self a t, rfl⟩ hnone
      · constructor
        · rintro (⟨⟨r, hrt, hrseg⟩, hall⟩ | ⟨hmem, hnone⟩)
          · exact Or.inl ⟨⟨r, List.mem_cons_of_mem a hrt, hrseg⟩,
              fun r2 hr2 hseg2 => by
                rcases List.mem_cons.mp hr2 with rfl | hr2t
                · exact absurd hseg2.symm hx
                · exact hall r2 hr2t hseg2⟩
          · exact Or.inr ⟨(mem_rerase.mp hmem).1,
              fun ⟨r, hr, hseg⟩ => by
                rcases List.mem_cons.mp hr with rfl | hrt
                · exact hx hseg.symm
                · exact hnone ⟨r, hrt, hseg⟩⟩
        · rintro (⟨⟨r, hr, hrseg⟩, hall⟩ | ⟨hmem, hnone⟩)
          · rcases List.mem_cons.mp hr with rfl | hrt
            · exact absurd hrseg.symm hx
            · exact Or.inl ⟨⟨r, hrt, hrseg⟩,
                fun r2 hr2 hseg2 => hall r2 (List.mem_cons_of_mem a hr2) hseg2⟩
          · refine Or.inr ⟨mem_rerase.mpr ⟨hmem, hx⟩, fun ⟨r, hrt, hseg⟩ =>
              hnone ⟨r, List.mem_cons_of_mem a hrt, hseg⟩⟩
    · -- head FAILED
      rw [List.foldl_cons, ha]
      rw [ih (rinsert a.segmentId acc) hterm' huni']
      by_cases hx : x = a.segmentId
      · subst hx
        constructor
        · rintro (⟨_, hall⟩ | ⟨_, hnone⟩)
          · refine Or.inl ⟨⟨a, List.mem_cons_self a t, rfl⟩, fun r2 hr2 hseg2 => ?_⟩
            rcases List.mem_cons.mp hr2 with rfl | hr2t
            · exact ha
            · exact hall r2 hr2t hseg2
          · refine Or.inl ⟨⟨a, List.mem_cons_self a t, rfl⟩, fun r2 hr2 hseg2 => ?_⟩
            rcases List.mem_cons.mp hr2 with rfl | hr2t
            · exact ha
            · exact absurd ⟨r2, hr2t, hseg2⟩ hnone
        · rintro (⟨_, hall⟩ | ⟨_, hnone⟩)
          · by_cases hext : ∃ r ∈ t, r.segmentId = a.segmentId
            · exact Or.inl ⟨hext, fun r2 hr2 hseg2 =>
                hall r2 (List.mem_cons_of_mem a hr2) hseg2⟩
            · exact Or.inr ⟨mem_rinsert.mpr (Or.inl rfl), hext⟩
          · exact absurd ⟨a, List.mem_cons_self a t, rfl⟩ hnone
      · constructor
        · rintro (⟨⟨r, hrt, hrseg⟩, hall⟩ | ⟨hmem, hnone⟩)
          · exact Or.inl ⟨⟨r, List.mem_cons_of_mem a hrt, hrseg⟩,
              fun r2 hr2 hseg2 => by
                rcases List.mem_cons.mp hr2 with rfl | hr2t
                · exact ha
                · exact hall r2 hr2t hseg2⟩
          · have hxacc : x ∈ acc := by
              rcases mem_rinsert.mp hmem with h | h
              · exact absurd h hx
              · exact h
            exact Or.inr ⟨hxacc, fun ⟨r, hr, hseg⟩ => by
              rcases List.mem_cons.mp hr with rfl | hrt
              · exact hx hseg.symm
              · exact hnone ⟨r, hrt, hseg⟩⟩
        · rintro (⟨⟨r, hr, hrseg⟩, hall⟩ | ⟨hmem, hnone⟩)
          · rcases List.mem_cons.mp hr with rfl | hrt
            · exact absurd hrseg.symm hx
            · exact Or.inl ⟨⟨r, hrt, hrseg⟩,
                fun r2 hr2 hseg2 => hall r2 (List.mem_cons_of_mem a hr2) hseg2⟩
          · refine Or.inr ⟨mem_rinsert.mpr (Or.inr hmem), fun ⟨r, hrt, hseg⟩ =>
              hnone ⟨r, List.mem_cons_of_mem a hrt, hseg⟩⟩

lemma detectThrows_iff (l : List Replica)
    (hterm : ∀ r ∈ l, r.state = ReplicaState.ok ∨ r.state = ReplicaState.failed)
    (huni : ∀ r ∈ l, ∀ r2 ∈ l, r.segmentId = r2.segmentId → r.state = ReplicaState.ok →
      r2.state = ReplicaState.ok) :
    (detectThrows l = true ↔
      ∃ seg ∈ l.map Replica.segmentId,
        ∀ r ∈ l, r.segmentId = seg → r.state ≠ ReplicaState.ok) := by
  unfold detectThrows
  rw [Bool.not_eq_true']
  constructor
  · intro hne
    have hnonempty : detectFailures l ≠ [] := by
      intro hc
      rw [hc] at hne
      cases hne
    obtain ⟨x, hx⟩ := List.exists_mem_of_ne_nil _ hnonempty
    have := (detectFold_mem x l [] hterm huni).mp hx
    rcases this with ⟨⟨r, hr, hrseg⟩, hall⟩ | ⟨hmem, _⟩
    · refine ⟨x, List.mem_map.mpr ⟨r, hr, hrseg⟩, fun r2 hr2 hseg2 => ?_⟩
      rw [hall r2 hr2 hseg2]
      intro hc
      cases hc
    · cases hmem
  · rintro ⟨seg, hsegmem, hall⟩
    obtain ⟨r, hr, hrseg⟩ := List.mem_map.mp hsegmem
    have hmem : seg ∈ detectFailures l := by
      refine (detectFold_mem seg l [] hterm huni).mpr (Or.inl ⟨⟨r, hr, hrseg⟩, ?_⟩)
      intro r2 hr2 hseg2
      rcases hterm r2 hr2 with hok | hfail
      · exact absurd hok (hall r2 hr2 hseg2)
      · exact hfail
    cases hval : (detectFailures l).isEmpty with
    | false => rfl
    | true =>
      rw [List.isEmpty_iff] at hval
      rw [hval] at hmem
      cases hmem

lemma shape_getD {l : List Replica} {pairs : List (Nat × Nat)}
    (h : l.map stripReplica = pairs) {i : Nat} (hi : i < l.length) :
    stripReplica (l.getD i defaultReplica) = pairs.getD i (0, 0) := by
  subst h
  rw [List.getD_eq_getElem _ _ hi,
    List.getD_eq_getElem _ _ (by simpa using hi), List.getElem_map]

lemma inv_mem_facts {env : Nat → Bool} {pairs : List (Nat × Nat)} {st : RecoverState}
    (hinv : Inv env pairs st) (hterm : st.activeRequests = 0) :
    (∀ r ∈ st.replicas, r.state = ReplicaState.ok ∨ r.state = ReplicaState.failed) ∧
    (∀ r ∈ st.replicas, ∀ r2 ∈ st.replicas, r.segmentId = r2.segmentId →
      r.state = ReplicaState.ok → r2.state = ReplicaState.ok) := by
  have hdone := hinv.done_done hterm
  constructor
  · intro r hr
    obtain ⟨i, hlt, heq⟩ := List.mem_iff_getElem.mp hr
    have := hdone i hlt
    simp only [repAt] at this
    rw [List.getD_eq_getElem _ _ hlt, heq] at this
    exact this
  · intro r hr r2 hr2 hseg hok
    obtain ⟨i, hlt, heq⟩ := List.mem_iff_getElem.mp hr
    obtain ⟨i2, hlt2, heq2⟩ := List.mem_iff_getElem.mp hr2
    have := hinv.ok_uniform i i2 hlt hlt2 (by
        simp only [repAt]
        rw [List.getD_eq_getElem _ _ hlt, heq]
        exact hok)
      (by
        simp only [repAt]
        rw [List.getD_eq_getElem _ _ hlt, List.getD_eq_getElem _ _ hlt2, heq, heq2]
        exact hseg.symm)
    simp only [repAt] at this
    rw [List.getD_eq_getElem _ _ hlt2, heq2] at this
    exact this

/-- C1: after the replay loop of partition recovery terminates,
`detectSegmentRecoveryFailure` throws `SegmentRecoveryFailedException` if and
only if some segment id appearing in the replica list has no replica that
reached state OK; and for every input replica list in which each segment id
has at least one replica whose fetches do not fail, the loop ends with the
check passing (recovery reports success, no throw). -/
theorem claim_C1_detect_iff_success (env : Nat → Bool) (pairs : List (Nat × Nat))
    (st : RecoverState) (hreach : Reachable env pairs st)
    (hterm : st.activeRequests = 0) :
    (detectThrows st.replicas = true ↔
      ∃ seg ∈ st.replicas.map Replica.segmentId,
        ∀ r ∈ st.replicas, r.segmentId = seg → r.state ≠ ReplicaState.ok) ∧
    ((∀ seg ∈ pairs.map Prod.snd, ∃ i ∈ List.range pairs.length,
        (pairs.getD i (0, 0)).2 = seg ∧ env i = true) →
      detectThrows st.replicas = false) := by
  have hinv := reachable_inv hreach
  obtain ⟨htermMem, huniMem⟩ := inv_mem_facts hinv hterm
  have hiff := detectThrows_iff st.replicas htermMem huniMem
  refine ⟨hiff, fun hH => ?_⟩
  rw [← Bool.not_eq_true, hiff]
  rintro ⟨seg, hsegmem, hallnotok⟩
  have hlenEq : st.replicas.length = pairs.length := by
    have := congrArg List.length hinv.shape
    rwa [List.length_map] at this
  have hsegmem2 : seg ∈ pairs.map Prod.snd := by
    obtain ⟨r, hr, hrseg⟩ := List.mem_map.mp hsegmem
    obtain ⟨i, hlt, heq⟩ := List.mem_iff_getElem.mp hr
    refine List.mem_map.mpr ⟨pairs.getD i (0, 0), ?_, ?_⟩
    · rw [List.getD_eq_getElem _ _ (by omega)]
      exact List.getElem_mem _
    · have := shape_getD hinv.shape hlt
      rw [List.getD_eq_getElem _ _ hlt, heq] at this
      rw [← this]
      exact hrseg
  obtain ⟨i, hirange, hiseg, hienv⟩ := hH seg hsegmem2
  rw [List.mem_range] at hirange
  have hilt : i < st.replicas.length := by omega
  have hstrip := shape_getD hinv.shape hilt
  have hsegi : (st.replicas.getD i defaultReplica).segmentId = seg := by
    have := congrArg Prod.snd hstrip
    simp only [stripReplica] at this
    rw [this]
    exact hiseg
  have hnotfail := hinv.env_ok i hilt hienv
  have hok : (repAt st i).state = ReplicaState.ok := by
    rcases hinv.done_done hterm i hilt with h | h
    · exact h
    · exact absurd h hnotfail
  exact hallnotok (st.replicas.getD i defaultReplica) (getD_mem hilt) hsegi hok

/-- Witness for C1: one segment (id 7) with a single healthy replica; the
loop terminates after one completion and the check passes. -/
theorem claim_C1_witness :
    detectThrows (processSlot (fun _ => true) (initState [(1, 7)]) 0).replicas = false := by
  have hreach : Reachable (fun _ => true) [(1, 7)]
      (processSlot (fun _ => true) (initState [(1, 7)]) 0) :=
    Relation.ReflTransGen.single
      (RecoverStep.step (initState [(1, 7)]) 0 0 (by decide))
  exact (claim_C1_detect_iff_success (fun _ => true) [(1, 7)] _ hreach (by decide)).2
    (by decide)

/-- C9: when the event loop of `MasterService::recover` terminates
(`activeRequests` reaches zero), every replica in the list is OK or FAILED —
none is left NOT_STARTED or WAITING, so the state assertion in
`detectSegmentRecoveryFailure` never fires. -/
theorem claim_C9_terminal_states (env : Nat → Bool) (pairs : List (Nat × Nat))
    (st : RecoverState) (hreach : Reachable env pairs st)
    (hterm : st.activeRequests = 0) :
    ∀ r ∈ st.replicas, r.state = ReplicaState.ok ∨ r.state = ReplicaState.failed :=
  (inv_mem_facts (reachable_inv hreach) hterm).1

/-- Witness for C9 at a concrete one-replica input: the single replica of
segment 9 ends OK or FAILED once the loop terminates. -/
theorem claim_C9_witness :
    ((processSlot (fun _ => true) (initState [(2, 9)]) 0).replicas.getD 0
        defaultReplica).state = ReplicaState.ok ∨
    ((processSlot (fun _ => true) (initState [(2, 9)]) 0).replicas.getD 0
        defaultReplica).state = ReplicaState.failed := by
  have hreach : Reachable (fun _ => true) [(2, 9)]
      (processSlot (fun _ => true) (initState [(2, 9)]) 0) :=
    Relation.ReflTransGen.single
      (RecoverStep.step (initState [(2, 9)]) 0 0 (by decide))
  exact claim_C9_terminal_states (fun _ => true) [(2, 9)] _ hreach (by decide)
    _ (by decide)

/-- C3: throughout the event loop at most `W = 4` GetRecoveryData RPCs are in
flight and no two in-flight RPCs are for the same segment id; every in-flight
replica is WAITING with its segment id in `runningSet`; the slot-refill scan
only picks a replica whose state is NOT_STARTED and whose segment id is not
in `runningSet`, and picking sets the state to WAITING and inserts the
segment id. -/
theorem claim_C3_bounded_concurrency (env : Nat → Bool) (pairs : List (Nat × Nat))
    (st : RecoverState) (hreach : Reachable env pairs st) :
    (st.activeRequests = occupiedCount st ∧ occupiedCount st ≤ 4) ∧
    (∀ k k2 r r2, st.slots k = some r → st.slots k2 = some r2 → k ≠ k2 →
      (repAt st r).segmentId ≠ (repAt st r2).segmentId) ∧
    (∀ k r, st.slots k = some r →
      (repAt st r).state = ReplicaState.waiting ∧
      (repAt st r).segmentId ∈ st.runningSet) ∧
    (∀ (l : List Replica) (running : List Nat) (i j : Nat),
      findCandidate l running i = some j →
        (l.getD j defaultReplica).state = ReplicaState.notStarted ∧
        (l.getD j defaultReplica).segmentId ∉ running) ∧
    (∀ (s : RecoverState) (k : Fin 4) (j : Nat), j < s.replicas.length →
      (repAt (pickReplica s k j) j).state = ReplicaState.waiting ∧
      (repAt (pickReplica s k j) j).segmentId ∈ (pickReplica s k j).runningSet) := by
  have hinv := reachable_inv hreach
  refine ⟨⟨hinv.active_eq, ?_⟩, hinv.slot_seg_inj,
    fun k r hk => ⟨hinv.slot_waiting k r hk, hinv.slot_running k r hk⟩, ?_, ?_⟩
  · unfold occupiedCount slotSet
    refine le_trans (Finset.card_filter_le _ _) ?_
    simp
  · intro l running i j h
    have := findCandidate_some_spec l running i j h
    exact ⟨this.2.2.1, this.2.2.2⟩
  · intro s k j hj
    unfold pickReplica
    constructor
    · show ((setState s.replicas j ReplicaState.waiting).getD j defaultReplica).state = _
      rw [getD_setState_eq _ hj]
    · show ((setState s.replicas j ReplicaState.waiting).getD j defaultReplica).segmentId ∈
        rinsert (s.replicas.getD j defaultReplica).segmentId s.runningSet
      rw [seg_setState]
      exact mem_rinsert.mpr (Or.inl rfl)

/-- Witness for C3 at a concrete reachable state. -/
theorem claim_C3_witness :
    (initState [(1, 7)]).activeRequests = occupiedCount (initState [(1, 7)]) ∧
    occupiedCount (initState [(1, 7)]) ≤ 4 :=
  (claim_C3_bounded_concurrency (fun _ => true) [(1, 7)] (initState [(1, 7)])
    Relation.ReflTransGen.refl).1

/-- C2 counterexample (spec scenario S5, segment 42 with a corrupt first
replica and a healthy second one): the claim says the first replica ends in
state FAILED, but after the successful replay of the second replica the
`segmentIdToBackups.equal_range` loop marks every replica of segment 42 OK —
including the first, overwriting its FAILED state.  The run below is the
only possible schedule (slot 0 is the only occupied slot throughout). -/
theorem claim_C2_counterexample :
    (repAt s5fin 0).state = ReplicaState.ok ∧
    (repAt s5fin 0).state ≠ ReplicaState.failed ∧
    s5fin.replays = [42] ∧ s5fin.activeRequests = 0 := by decide

/-- C2 amended: in scenario S5 exactly one replay of segment 42 occurs, the
recovery succeeds, and BOTH replicas end in state OK (the first replica's
FAILED state is overwritten when the second replica's replay marks every
replica of the segment OK). -/
theorem claim_C2_amended :
    Reachable envS5 pairsS5 s5fin ∧
    ((initState pairsS5).slots 1 = none ∧ (initState pairsS5).slots 2 = none ∧
     (initState pairsS5).slots 3 = none ∧ s5mid.slots 1 = none ∧
     s5mid.slots 2 = none ∧ s5mid.slots 3 = none) ∧
    s5fin.replays = [42] ∧
    s5fin.replicas = [⟨1, 42, ReplicaState.ok⟩, ⟨2, 42, ReplicaState.ok⟩] ∧
    detectThrows s5fin.replicas = false ∧ s5fin.activeRequests = 0 := by
  refine ⟨?_, by decide, by decide, by decide, by decide, by decide⟩
  exact Relation.ReflTransGen.tail
    (Relation.ReflTransGen.single (RecoverStep.step (initState pairsS5) 0 0 (by decide)))
    (RecoverStep.step s5mid 0 1 (by decide))

lemma casLoop_ge_of_reached (env : Nat → Nat) (ts : Nat) :
    ∀ fuel current cell, ts ≤ cell → current ≤ cell →
      ts ≤ casLoop env ts fuel current cell ∧ cell ≤ casLoop env ts fuel current cell := by
  intro fuel
  induction fuel with
  | zero => intro current cell h1 h2; exact ⟨h1, le_refl _⟩
  | succ f ih =>
    intro current cell h1 h2
    by_cases hc : current < ts
    · have hne : max cell (env f) ≠ current := by
        have := le_max_left cell (env f); omega
      have hcx : compareExchange (max cell (env f)) current ts =
          (max cell (env f), max cell (env f)) := by
        simp [compareExchange, hne]
      have hmax : cell ≤ max cell (env f) := le_max_left _ _
      have := ih (max cell (env f)) (max cell (env f)) (le_trans h1 hmax) (le_refl _)
      simp only [casLoop, if_pos hc, hcx]
      exact ⟨this.1, le_trans hmax this.2⟩
    · simp only [casLoop, if_neg hc]
      exact ⟨h1, le_refl _⟩

lemma casLoop_reaches (env : Nat → Nat) (ts : Nat) :
    ∀ fuel current cell, current ≤ cell → ts + 1 ≤ fuel + current →
      ts ≤ casLoop env ts fuel current cell ∧ cell ≤ casLoop env ts fuel current cell := by
  intro fuel
  induction fuel with
  | zero =>
    intro current cell h1 h2
    simp only [casLoop]
    exact ⟨by omega, le_refl _⟩
  | succ f ih =>
    intro current cell h1 h2
    by_cases hc : current < ts
    · by_cases heq : max cell (env f) = current
      · have hcx : compareExchange (max cell (env f)) current ts = (ts, current) := by
          simp [compareExchange, heq]
        have hrest := casLoop_ge_of_reached env ts f current ts (le_refl _) (by omega)
        simp only [casLoop, if_pos hc, hcx]
        have hcell : cell = current := by
          have := le_max_left cell (env f); omega
        exact ⟨hrest.1, by omega⟩
      · have hcx : compareExchange (max cell (env f)) current ts =
            (max cell (env f), max cell (env f)) := by
          simp [compareExchange, heq]
        have hmax : cell ≤ max cell (env f) := le_max_left _ _
        have hgt : current < max cell (env f) := by omega
        have := ih (max cell (env f)) (max cell (env f)) (le_refl _) (by omega)
        simp only [casLoop, if_pos hc, hcx]
        exact ⟨this.1, le_trans hmax this.2⟩
    · simp only [casLoop, if_neg hc]
      exact ⟨by omega, le_refl _⟩

lemma updateClusterTime_spec (env : Nat → Nat) (ts cell0 : Nat) :
    ts ≤ updateClusterTime env ts cell0 ∧ cell0 ≤ updateClusterTime env ts cell0 :=
  casLoop_reaches env ts (ts + 1) cell0 cell0 (le_refl _) (by omega)

lemma trace_update_idx (tablets : List (Nat × Nat × Nat)) (cancel : Bool) (i : Nat)
    (h : (recoverRpcTrace tablets cancel)[i]? = some RecoverRpcEvent.updateClusterTimeEvt) :
    i = tablets.length + 1 := by
  unfold recoverRpcTrace at h
  rw [List.append_assoc, List.append_assoc, List.singleton_append] at h
  match i with
  | 0 => simp at h
  | i' + 1 =>
    rw [List.getElem?_cons_succ] at h
    by_cases hlt : i' < tablets.length
    · rw [List.getElem?_append_left (by simpa using hlt)] at h
      rw [List.getElem?_map] at h
      rcases Option.map_eq_some'.mp h with ⟨t, _, ht⟩
      simp at ht
    · rw [List.getElem?_append_right (by simpa using hlt)] at h
      simp only [List.length_map] at h
      rcases Nat.exists_eq_add_of_le (Nat.le_of_not_lt hlt) with ⟨d, hd⟩
      subst hd
      have hsub : tablets.length + d - tablets.length = d := by omega
      rw [hsub] at h
      match d with
      | 0 => omega
      | 1 => simp at h
      | 2 => simp at h
      | 3 => simp at h
      | d' + 4 =>
        simp only [List.cons_append, List.getElem?_cons_succ, List.nil_append] at h
        cases cancel <;> simp only [Bool.false_eq_true, if_false, if_true, reduceIte] at h <;>
        · rw [List.getElem?_map] at h
          rcases Option.map_eq_some'.mp h with ⟨t, _, ht⟩
          simp at ht

lemma trace_setNormal_idx (tablets : List (Nat × Nat × Nat)) (cancel : Bool) (j a b c : Nat)
    (h : (recoverRpcTrace tablets cancel)[j]? =
      some (RecoverRpcEvent.setTabletNormal a b c)) :
    tablets.length + 5 ≤ j := by
  unfold recoverRpcTrace at h
  rw [List.append_assoc, List.append_assoc, List.singleton_append] at h
  match j with
  | 0 => simp at h
  | j' + 1 =>
    rw [List.getElem?_cons_succ] at h
    by_cases hlt : j' < tablets.length
    · rw [List.getElem?_append_left (by simpa using hlt)] at h
      rw [List.getElem?_map] at h
      rcases Option.map_eq_some'.mp h with ⟨t, _, ht⟩
      simp at ht
    · rw [List.getElem?_append_right (by simpa using hlt)] at h
      simp only [List.length_map] at h
      rcases Nat.exists_eq_add_of_le (Nat.le_of_not_lt hlt) with ⟨d, hd⟩
      subst hd
      have hsub : tablets.length + d - tablets.length = d := by omega
      rw [hsub] at h
      match d with
      | 0 => simp at h
      | 1 => simp at h
      | 2 => simp at h
      | 3 => simp at h
      | d' + 4 => omega

/-- C4: the `Recover` RPC handler's compare-exchange loop advances
`clusterTime` to at least the timestamp obtained from the coordinator and
never below its prior value, for every monotone concurrent interference; and
in the handler's action trace the cluster-time update strictly precedes
every RECOVERING → NORMAL tablet transition (hence precedes serving any
recovered data, which requires a NORMAL tablet). -/
theorem claim_C4_cluster_time_gate :
    (∀ (envAdv : Nat → Nat) (ts cell0 : Nat),
      ts ≤ updateClusterTime envAdv ts cell0 ∧ cell0 ≤ updateClusterTime envAdv ts cell0) ∧
    (∀ (tablets : List (Nat × Nat × Nat)) (cancel : Bool) (i j a b c : Nat),
      (recoverRpcTrace tablets cancel)[i]? = some RecoverRpcEvent.updateClusterTimeEvt →
      (recoverRpcTrace tablets cancel)[j]? = some (RecoverRpcEvent.setTabletNormal a b c) →
      i < j) := by
  refine ⟨updateClusterTime_spec, ?_⟩
  intro tablets cancel i j a b c hi hj
  have h1 := trace_update_idx tablets cancel i hi
  have h2 := trace_setNormal_idx tablets cancel j a b c hj
  omega

/-- Witness for C4: a one-tablet partition, no cancellation; the update event
sits at index 2 and the only `setTabletNormal` at index 6; and with timestamp
9 from the coordinator, `clusterTime` starting at 3 ends at 9 or above. -/
theorem claim_C4_witness :
    (9 ≤ updateClusterTime (fun _ => 0) 9 3 ∧ 3 ≤ updateClusterTime (fun _ => 0) 9 3) ∧
    (2 : Nat) < 6 :=
  ⟨claim_C4_cluster_time_gate.1 (fun _ => 0) 9 3,
   claim_C4_cluster_time_gate.2 [(5, 0, 9)] false 2 6 5 0 9 (by decide) (by decide)⟩

/-- C5: during tablet migration a log entry is appended to a transfer
segment iff its type is OBJECT, OBJECT_TOMBSTONE or TX_DECISION, its table
id matches, its key hash lies in `[firstKeyHash, lastKeyHash]`, and — for
OBJECT entries — the hash table still points at this log entry; tombstones
in range are always sent.  On the two-version scenario (v1 superseded, v2
live) only v2 is streamed as an OBJECT, the tombstone is streamed
unconditionally, and the destination (replay keeping the highest version per
key hash) holds exactly v2. -/
theorem claim_C5_migration_filter :
    (∀ (tableId firstKeyHash lastKeyHash : Nat) (e : LogEntry),
      entrySelected tableId firstKeyHash lastKeyHash e = true ↔
        ((e.type = LogEntryType.obj ∨ e.type = LogEntryType.objTomb ∨
          e.type = LogEntryType.txDecision) ∧
         e.tableId = tableId ∧ firstKeyHash ≤ e.keyHash ∧ e.keyHash ≤ lastKeyHash ∧
         (e.type = LogEntryType.obj → e.liveInHashTable = true))) ∧
    (migrateFiltered 1 0 100
        [⟨LogEntryType.obj, 1, 5, 1, false⟩, ⟨LogEntryType.objTomb, 1, 5, 1, false⟩,
         ⟨LogEntryType.obj, 1, 5, 2, true⟩] =
      [⟨LogEntryType.objTomb, 1, 5, 1, false⟩, ⟨LogEntryType.obj, 1, 5, 2, true⟩] ∧
     destHolds (migrateFiltered 1 0 100
        [⟨LogEntryType.obj, 1, 5, 1, false⟩, ⟨LogEntryType.objTomb, 1, 5, 1, false⟩,
         ⟨LogEntryType.obj, 1, 5, 2, true⟩]) 5 = some 2) := by
  refine ⟨?_, by decide⟩
  intro tableId firstKeyHash lastKeyHash e
  rcases e with ⟨ty, etid, ekh, ever, elive⟩
  cases ty <;> cases elive <;> simp [entrySelected]

/-- C6: `migrateTablet` rejects without transferring any data — when the
master does not own a contiguous tablet covering the requested range it
returns UNKNOWN_TABLET, and when the requested new owner is the master
itself (and the range is owned) it returns REQUEST_FORMAT_ERROR. -/
theorem claim_C6_migrate_rejections (map : List Tablet) (serverId : Nat)
    (log : List LogEntry) (tableId first last newOwner : Nat) :
    (getTablet map tableId first last = none →
      migrateTabletRun map serverId log tableId first last newOwner =
        (MigrateOutcome.unknownTablet, [])) ∧
    ((getTablet map tableId first last).isSome = true → newOwner = serverId →
      migrateTabletRun map serverId log tableId first last newOwner =
        (MigrateOutcome.requestFormatError, [])) := by
  constructor
  · intro h
    simp [migrateTabletRun, h]
  · intro h hself
    rcases Option.isSome_iff_exists.mp h with ⟨t, ht⟩
    simp [migrateTabletRun, ht, hself]

/-- Witness for C6: a request for an unowned range, and a migration to self
on an owned range. -/
theorem claim_C6_witness :
    migrateTabletRun [] 7 [] 1 0 5 3 = (MigrateOutcome.unknownTablet, []) ∧
    migrateTabletRun [Tablet.mk 1 0 10 TabletState.normal] 7 [] 1 0 5 7 =
      (MigrateOutcome.requestFormatError, []) :=
  ⟨(claim_C6_migrate_rejections [] 7 [] 1 0 5 3).1 (by decide),
   (claim_C6_migrate_rejections [Tablet.mk 1 0 10 TabletState.normal] 7 [] 1 0 5 7).2
     (by decide) (by decide)⟩

/-- C7 (spec scenario S1/S2): with backup 1 holding segments 88 and 89,
backup 2 holding 88 and backup 3 holding nothing, the segment→backup map
iterates as (88, backup1), (88, backup2), (89, backup1) — segment ids
ascending, backups ascending within a segment id — and the dispatch list has
exactly those 3 entries in the same order, all with the BACKUP role. -/
theorem claim_C7_replica_map_order :
    buildSegmentIdToBackups [(1, [88, 89]), (2, [88]), (3, [])] =
      [(88, 1), (88, 2), (89, 1)] ∧
    createBackupList [(1, [88, 89]), (2, [88]), (3, [])] =
      [⟨88, 1, ServerRole.backupRole⟩, ⟨88, 2, ServerRole.backupRole⟩,
       ⟨89, 1, ServerRole.backupRole⟩] := by decide

/-- C8 (spec scenario S4): with three recovery partitions and two masters,
the dispatcher attempts exactly the two partitions the masters can take,
never attempts the surplus partition, and emits the terminal "busted"
diagnostic. -/
theorem claim_C8_not_enough_masters :
    startRecoveryDispatch [1, 2] [0, 1, 2] =
      { attempted := [0, 1], bustedDiagnostic := true } ∧
    2 ∉ (startRecoveryDispatch [1, 2] [0, 1, 2]).attempted := by decide

lemma covering_overlap_eq {map : List Tablet} {tableId first last : Nat}
    (hdisj : TabletsDisjoint map) {t t2 : Tablet} (ht : t ∈ map) (ht2 : t2 ∈ map)
    (hov : overlapsRange t tableId first last)
    (hcov : t2.tableId = tableId ∧ t2.startKeyHash ≤ first ∧ last ≤ t2.endKeyHash) :
    t = t2 := by
  by_contra hne
  have hsymm : Symmetric (fun a b : Tablet =>
      a.tableId ≠ b.tableId ∨ a.endKeyHash < b.startKeyHash ∨ b.endKeyHash < a.startKeyHash) := by
    intro a b hab
    rcases hab with h | h | h
    · exact Or.inl (Ne.symm h)
    · exact Or.inr (Or.inr h)
    · exact Or.inr (Or.inl h)
  have hR := List.Pairwise.forall hsymm hdisj ht ht2 hne
  obtain ⟨hov1, hov2, hov3⟩ := hov
  obtain ⟨hc1, hc2, hc3⟩ := hcov
  rcases hR with h | h | h
  · exact h (hov1.trans hc1.symm)
  · omega
  · omega

lemma getTablet_some {map : List Tablet} {tableId first last : Nat} (t : Tablet)
    (ht : t ∈ map)
    (hcov : t.tableId = tableId ∧ t.startKeyHash ≤ first ∧ last ≤ t.endKeyHash) :
    ∃ t2, getTablet map tableId first last = some t2 ∧ t2 ∈ map ∧
      t2.tableId = tableId ∧ t2.startKeyHash ≤ first ∧ last ≤ t2.endKeyHash := by
  unfold getTablet
  have hsome : (map.find? (fun t =>
      decide (t.tableId = tableId ∧ t.startKeyHash ≤ first ∧ last ≤ t.endKeyHash))).isSome :=
    List.find?_isSome.mpr ⟨t, ht, decide_eq_true hcov⟩
  obtain ⟨t2, ht2⟩ := Option.isSome_iff_exists.mp hsome
  have hmem := List.mem_of_find?_eq_some ht2
  have hp0 := List.find?_some ht2
  simp only [decide_eq_true_eq] at hp0
  exact ⟨t2, ht2, hmem, hp0.1, hp0.2.1, hp0.2.2⟩

/-- C10 counterexample: the claim says only a conflicting overlap with
different ranges yields INTERNAL_ERROR, but a tablet with exactly the
requested table id and range that is LOCKED_FOR_MIGRATION also does: it is
not NORMAL and cannot be flipped from RECOVERING, so the handler falls
through to INTERNAL_ERROR. -/
theorem claim_C10_counterexample :
    takeTabletOwnership [Tablet.mk 7 0 10 TabletState.lockedForMigration] 7 0 10 =
      (TakeOutcome.internalError, [Tablet.mk 7 0 10 TabletState.lockedForMigration]) ∧
    (Tablet.mk 7 0 10 TabletState.lockedForMigration).tableId = 7 ∧
    (Tablet.mk 7 0 10 TabletState.lockedForMigration).startKeyHash = 0 ∧
    (Tablet.mk 7 0 10 TabletState.lockedForMigration).endKeyHash = 10 := by decide

/-- C10 amended: `takeTabletOwnership` is idempotent at the public interface.
If the master already owns a tablet with exactly the requested
`(tableId, firstKeyHash, lastKeyHash)` in NORMAL state, the operation
succeeds and leaves the tablet map unchanged; if the tablet exists in
RECOVERING state it is transitioned to NORMAL; and INTERNAL_ERROR implies a
conflicting overlapping tablet exists and any tablet with exactly the
requested range is LOCKED_FOR_MIGRATION (an exact-range tablet locked for
migration also yields INTERNAL_ERROR, not only overlaps with different
ranges). -/
theorem claim_C10_take_ownership (map : List Tablet) (tableId first last : Nat)
    (hdisj : TabletsDisjoint map) (hfl : first ≤ last) :
    (Tablet.mk tableId first last TabletState.normal ∈ map →
      takeTabletOwnership map tableId first last = (TakeOutcome.takeSuccess, map)) ∧
    (Tablet.mk tableId first last TabletState.recovering ∈ map →
      (takeTabletOwnership map tableId first last).1 = TakeOutcome.takeSuccess ∧
      Tablet.mk tableId first last TabletState.normal ∈
        (takeTabletOwnership map tableId first last).2) ∧
    ((takeTabletOwnership map tableId first last).1 = TakeOutcome.internalError →
      (∃ t ∈ map, overlapsRange t tableId first last) ∧
      ∀ t ∈ map, t.tableId = tableId → t.startKeyHash = first → t.endKeyHash = last →
        t.state = TabletState.lockedForMigration) := by
  refine ⟨?_, ?_, ?_⟩
  · -- exact NORMAL tablet: success, map unchanged
    intro hmem
    have hov : overlapsRange (Tablet.mk tableId first last TabletState.normal)
        tableId first last := ⟨rfl, by simpa using hfl, by simpa using hfl⟩
    have hadd : addTablet map tableId first last TabletState.normal = none := by
      unfold addTablet
      rw [if_pos (List.any_eq_true.mpr ⟨_, hmem, decide_eq_true hov⟩)]
    obtain ⟨t2, hget, ht2mem, ht2cov⟩ :=
      getTablet_some (Tablet.mk tableId first last TabletState.normal) hmem
        ⟨rfl, le_refl _, le_refl _⟩
    have ht2eq : Tablet.mk tableId first last TabletState.normal = t2 :=
      covering_overlap_eq hdisj hmem ht2mem hov ht2cov
    have ht2n : t2.state = TabletState.normal := by rw [← ht2eq]
    simp [takeTabletOwnership, hadd, hget, ht2n]
  · -- exact RECOVERING tablet: success, transitioned to NORMAL
    intro hmem
    have hov : overlapsRange (Tablet.mk tableId first last TabletState.recovering)
        tableId first last := ⟨rfl, by simpa using hfl, by simpa using hfl⟩
    have hadd : addTablet map tableId first last TabletState.normal = none := by
      unfold addTablet
      rw [if_pos (List.any_eq_true.mpr ⟨_, hmem, decide_eq_true hov⟩)]
    obtain ⟨t2, hget, ht2mem, ht2cov⟩ :=
      getTablet_some (Tablet.mk tableId first last TabletState.recovering) hmem
        ⟨rfl, le_refl _, le_refl _⟩
    have ht2eq : Tablet.mk tableId first last TabletState.recovering = t2 :=
      covering_overlap_eq hdisj hmem ht2mem hov ht2cov
    have ht2r : t2.state = TabletState.recovering := by rw [← ht2eq]
    have ht2nn : ¬t2.state = TabletState.normal := by
      rw [ht2r]
      intro hc
      cases hc
    have hchg : changeState map tableId first last TabletState.recovering TabletState.normal =
        some (map.map (fun t =>
          if t = Tablet.mk tableId first last TabletState.recovering then
            Tablet.mk tableId first last TabletState.normal
          else t)) := by
      unfold changeState
      rw [if_pos (List.any_eq_true.mpr ⟨_, hmem, decide_eq_true rfl⟩)]
    simp only [takeTabletOwnership, hadd, hget, hchg, if_neg ht2nn]
    refine ⟨by trivial, ?_⟩
    exact List.mem_map.mpr ⟨Tablet.mk tableId first last TabletState.recovering, hmem,
      by rw [if_pos rfl]⟩
  · -- INTERNAL_ERROR analysis
    intro hIE
    rcases hadd : addTablet map tableId first last TabletState.normal with _ | m
    swap
    · rw [show takeTabletOwnership map tableId first last = (TakeOutcome.takeSuccess, m) by
        simp only [takeTabletOwnership, hadd]] at hIE
      cases hIE
    have hany : map.any (fun t => decide (overlapsRange t tableId first last)) = true := by
      by_contra hc
      unfold addTablet at hadd
      rw [if_neg (by simpa using hc)] at hadd
      cases hadd
    obtain ⟨t0, ht0mem, ht0p⟩ := List.any_eq_true.mp hany
    refine ⟨⟨t0, ht0mem, of_decide_eq_true ht0p⟩, ?_⟩
    rintro ⟨ttid, tst, ten, tstate⟩ htmem htid hts hte
    have htmem2 : Tablet.mk tableId first last tstate ∈ map := by
      rw [← htid, ← hts, ← hte]
      exact htmem
    cases tstate with
    | lockedForMigration => rfl
    | normal =>
      exfalso
      obtain ⟨t2, hget, ht2mem, ht2cov⟩ :=
        getTablet_some (Tablet.mk tableId first last TabletState.normal) htmem2
          ⟨rfl, le_refl _, le_refl _⟩
      have hov : overlapsRange (Tablet.mk tableId first last TabletState.normal)
          tableId first last := ⟨rfl, by simpa using hfl, by simpa using hfl⟩
      have ht2eq : Tablet.mk tableId first last TabletState.normal = t2 :=
        covering_overlap_eq hdisj htmem2 ht2mem hov ht2cov
      have ht2n : t2.state = TabletState.normal := by rw [← ht2eq]
      rw [show takeTabletOwnership map tableId first last = (TakeOutcome.takeSuccess, map) by
        simp [takeTabletOwnership, hadd, hget, ht2n]] at hIE
      cases hIE
    | recovering =>
      exfalso
      obtain ⟨t2, hget, ht2mem, ht2cov⟩ :=
        getTablet_some (Tablet.mk tableId first last TabletState.recovering) htmem2
          ⟨rfl, le_refl _, le_refl _⟩
      have hov : overlapsRange (Tablet.mk tableId first last TabletState.recovering)
          tableId first last := ⟨rfl, by simpa using hfl, by simpa using hfl⟩
      have ht2eq : Tablet.mk tableId first last TabletState.recovering = t2 :=
        covering_overlap_eq hdisj htmem2 ht2mem hov ht2cov
      have ht2r : t2.state = TabletState.recovering := by rw [← ht2eq]
      have ht2nn : ¬t2.state = TabletState.normal := by
        rw [ht2r]
        intro hc
        cases hc
      have hchg : changeState map tableId first last TabletState.recovering
          TabletState.normal = some (map.map (fun t =>
            if t = Tablet.mk tableId first last TabletState.recovering then
              Tablet.mk tableId first last TabletState.normal
            else t)) := by
        unfold changeState
        rw [if_pos (List.any_eq_true.mpr ⟨_, htmem2, decide_eq_true rfl⟩)]
      rw [show (takeTabletOwnership map tableId first last).1 = TakeOutcome.takeSuccess by
        simp only [takeTabletOwnership, hadd, hget, hchg, if_neg ht2nn]] at hIE
      cases hIE

/-- Witness for C10: a singleton map holding the exact requested tablet in
RECOVERING state is flipped to NORMAL with success. -/
theorem claim_C10_witness :
    (takeTabletOwnership [Tablet.mk 3 2 8 TabletState.recovering] 3 2 8).1 =
      TakeOutcome.takeSuccess ∧
    Tablet.mk 3 2 8 TabletState.normal ∈
      (takeTabletOwnership [Tablet.mk 3 2 8 TabletState.recovering] 3 2 8).2 :=
  (claim_C10_take_ownership [Tablet.mk 3 2 8 TabletState.recovering] 3 2 8
    (by decide) (by decide)).2.1 (by decide)

end RAMCloudRecovery
